import Mathlib

/-!
Shallow embedding of the modal text editor in src/main.rs (the `phantom`
editor) and proofs about its buffer, undo/redo, selection, keybinding and
tab-lifecycle behaviour.

Modelling conventions:
* Rust `String` lines are modelled as `List Char`; byte indices of the
  source coincide with character indices on the ASCII inputs used here.
* `cursor_position : (usize, usize)` is `(column, line)` in the source, so
  in the model `cursor_position.1` is the column and `cursor_position.2`
  the line, exactly as `.0` / `.1` in Rust.
* `VecDeque` front-pushed stacks are modelled as lists whose head is the
  most recent entry (`push_front` is cons, `pop_front` pops the head,
  `pop_back` is `dropLast`).
* A Rust panic (out-of-range `Vec`/`String` indexing, arithmetic underflow
  in debug builds, `.unwrap()` on `Err`) aborts the process; an operation
  that panics is modelled as returning `none`, so a panicking call has no
  successor state.
* The external clipboard collaborator is a `Clipboard` record carrying its
  contents and a flag saying whether `set_contents`/`get_contents` fail
  (`ClipboardError`); the actual OS clipboard is outside the model.
* Filesystem, rendering, syntax highlighting and the directory browser are
  external collaborators; operations that only touch them are modelled as
  the identity on the editor state they do not inspect.
-/

namespace Phantom

/-- Snapshot pushed on the undo/redo stacks: full copy of `content`,
`cursor_position`, `scroll_offset`, `horizontal_scroll` (struct
`EditOperation` in the source). -/
structure EditOperation where
  content : List (List Char)
  cursor_position : Nat × Nat
  scroll_offset : Nat
  horizontal_scroll : Nat
deriving DecidableEq

/-- External clipboard collaborator: `contents` is what was last stored,
`fails` says whether `set_contents`/`get_contents` return `Err`. -/
structure Clipboard where
  contents : List Char
  fails : Bool
deriving DecidableEq

/-- One tab: a buffer plus its cursor, viewport offsets and history
(struct `Tab` in the source). The `syntax` field of the source is named
`synLabel` here. -/
structure Tab where
  content : List (List Char)
  cursor_position : Nat × Nat
  scroll_offset : Nat
  horizontal_scroll : Nat
  current_file : Option String
  synLabel : String
  undo_stack : List EditOperation
  redo_stack : List EditOperation
deriving DecidableEq

/-- Editor modes (enum `Mode` in the source). -/
inductive Mode where
  | Normal
  | Insert
  | Command
  | Visual
  | FileSelect
  | DirectoryNav
  | Search
  | SidebarActive
deriving DecidableEq

/-- Editor state (struct `Editor` in the source, restricted to the fields
the modal editing core reads or writes; rendering-only fields such as
color configuration, theme sets and minimap geometry are omitted). The
fields `content` .. `synLabel` duplicate the active tab and are kept in
sync only by `update_current_tab_info`, exactly as in the source. -/
structure Editor where
  content : List (List Char)
  cursor_position : Nat × Nat
  scroll_offset : Nat
  horizontal_scroll : Nat
  current_file : Option String
  synLabel : String
  mode : Mode
  debug_messages : List String
  command_buffer : String
  clipboard_context : Clipboard
  visual_start : Nat × Nat
  show_debug : Bool
  search_query : List Char
  search_results : List (Nat × Nat)
  current_search_index : Nat
  show_sidebar : Bool
  pending_key : Option String
  keybindings : List (String × String)
  tabs : List Tab
  active_tab : Nat
  show_minimap : Bool
deriving DecidableEq

/-- Tab::new: one empty line, cursor at the origin, empty history. -/
def Tab.new : Tab :=
  { content := [[]]
    cursor_position := (0, 0)
    scroll_offset := 0
    horizontal_scroll := 0
    current_file := none
    synLabel := "Plain Text"
    undo_stack := []
    redo_stack := [] }

/-- Keybindings::default().normal_mode as the association list written in
the source (the duplicated "dd" entry of the source array is kept; the
HashMap lookup is modelled by first-match lookup, which agrees because the
duplicate maps to the same action). -/
def defaultNormalMode : List (String × String) :=
  [("dd", "delete_line"),
   ("i", "enter_insert_mode"),
   ("Insert", "enter_insert_mode"),
   ("a", "append"),
   ("o", "open_line_below"),
   ("O", "open_line_above"),
   ("dd", "delete_line"),
   ("yy", "yank_line"),
   ("p", "paste_after"),
   ("v", "enter_visual_mode"),
   (":", "enter_command_mode"),
   ("Ctrl+b", "toggle_debug_menu"),
   ("Ctrl+e", "toggle_sidebar"),
   ("/", "enter_search_mode"),
   ("n", "next_search_result"),
   ("N", "previous_search_result"),
   ("Ctrl+y", "copy_selection"),
   ("Ctrl+p", "paste_clipboard"),
   ("Ctrl+u", "undo"),
   ("Ctrl+r", "redo"),
   ("Tab", "next_tab"),
   ("F1", "switch_to_tab_1"),
   ("F2", "switch_to_tab_2"),
   ("F3", "switch_to_tab_3"),
   ("F4", "switch_to_tab_4"),
   ("F5", "switch_to_tab_5"),
   ("F6", "switch_to_tab_6"),
   ("F7", "switch_to_tab_7"),
   ("F8", "switch_to_tab_8"),
   ("F9", "switch_to_tab_9"),
   ("Ctrl+t", "new_tab"),
   ("Ctrl+w", "close_tab"),
   ("Ctrl+Shift+Tab", "previous_tab"),
   ("Ctrl+m", "toggle_minimap")]

/-- Editor::new with the built-in default keybindings and a working
clipboard: a single scratch tab, Normal mode, `active_tab = 0`. -/
def Editor.new : Editor :=
  { content := [[]]
    cursor_position := (0, 0)
    scroll_offset := 0
    horizontal_scroll := 0
    current_file := none
    synLabel := "Plain Text"
    mode := Mode.Normal
    debug_messages := []
    command_buffer := ""
    clipboard_context := { contents := [], fails := false }
    visual_start := (0, 0)
    show_debug := false
    search_query := []
    search_results := []
    current_search_index := 0
    show_sidebar := false
    pending_key := none
    keybindings := defaultNormalMode
    tabs := [Tab.new]
    active_tab := 0
    show_minimap := false }

/-! ## Tab-level helpers and buffer primitives -/

/-- The fixed editor width used by Tab::adjust_horizontal_scroll. -/
def editorWidth : Nat := 80

/-- The fixed editor height returned by Editor::get_editor_height. -/
def editorHeight : Nat := 24

/-- Tab::adjust_horizontal_scroll. -/
def adjustHorizontalScroll (t : Tab) : Tab :=
  if t.cursor_position.1 < t.horizontal_scroll then
    { t with horizontal_scroll := t.cursor_position.1 }
  else if t.cursor_position.1 ≥ t.horizontal_scroll + editorWidth then
    { t with horizontal_scroll := t.cursor_position.1 - editorWidth + 1 }
  else t

/-- The EditOperation recording the current state of a tab. -/
def snapshotOf (t : Tab) : EditOperation :=
  { content := t.content
    cursor_position := t.cursor_position
    scroll_offset := t.scroll_offset
    horizontal_scroll := t.horizontal_scroll }

/-- Editor::save_state restricted to the active tab it mutates: push the
current snapshot on the undo stack, clear the redo stack, evict the oldest
undo entry when the stack exceeds 100 entries. -/
def saveStateTab (t : Tab) : Tab :=
  let op := snapshotOf t
  let pushed := op :: t.undo_stack
  { t with
      undo_stack := if pushed.length > 100 then pushed.dropLast else pushed
      redo_stack := [] }

/-- Editor::undo restricted to the active tab: pop the most recent undo
snapshot, push the current state on the redo stack, restore the snapshot;
no-op when the undo stack is empty. -/
def undoTab (t : Tab) : Tab :=
  match t.undo_stack with
  | [] => t
  | op :: rest =>
      { t with
          undo_stack := rest
          redo_stack := snapshotOf t :: t.redo_stack
          content := op.content
          cursor_position := op.cursor_position
          scroll_offset := op.scroll_offset
          horizontal_scroll := op.horizontal_scroll }

/-- Editor::redo restricted to the active tab: mirror of `undoTab` against
the redo stack. -/
def redoTab (t : Tab) : Tab :=
  match t.redo_stack with
  | [] => t
  | op :: rest =>
      { t with
          redo_stack := rest
          undo_stack := snapshotOf t :: t.undo_stack
          content := op.content
          cursor_position := op.cursor_position
          scroll_offset := op.scroll_offset
          horizontal_scroll := op.horizontal_scroll }

/-- Editor::insert_char on the active tab. `save_state` runs first; then
the current line is indexed (a Rust panic, hence `none`, when the line
index is out of range) and `String::insert` runs (a panic when the column
exceeds the line length). -/
def insertCharTab (c : Char) (t0 : Tab) : Option Tab :=
  let t := saveStateTab t0
  match t.content.get? t.cursor_position.2 with
  | none => none
  | some line =>
      if t.cursor_position.1 ≤ line.length then
        let line2 := line.take t.cursor_position.1 ++ c :: line.drop t.cursor_position.1
        some (adjustHorizontalScroll
          { t with
              content := t.content.set t.cursor_position.2 line2
              cursor_position := (t.cursor_position.1 + 1, t.cursor_position.2) })
      else none

/-- Editor::insert_newline on the active tab: split the current line at
the cursor column, cursor to column 0 of the new line. -/
def insertNewlineTab (t0 : Tab) : Option Tab :=
  let t := saveStateTab t0
  match t.content.get? t.cursor_position.2 with
  | none => none
  | some line =>
      if t.cursor_position.1 ≤ line.length then
        let kept := line.take t.cursor_position.1
        let rest := line.drop t.cursor_position.1
        some { t with
                 content := ((t.content.set t.cursor_position.2 kept).insertIdx
                   (t.cursor_position.2 + 1) rest)
                 cursor_position := (0, t.cursor_position.2 + 1) }
      else none

/-- Editor::backspace on the active tab: remove left of the cursor at
column > 0, merge with the previous line at column 0 on a later line,
and do nothing (beyond the unconditional `save_state`) at (0, 0). -/
def backspaceTab (t0 : Tab) : Option Tab :=
  let t := saveStateTab t0
  if t.cursor_position.1 > 0 then
    match t.content.get? t.cursor_position.2 with
    | none => none
    | some line =>
        if t.cursor_position.1 - 1 < line.length then
          some { t with
                   content := t.content.set t.cursor_position.2
                     (line.eraseIdx (t.cursor_position.1 - 1))
                   cursor_position := (t.cursor_position.1 - 1, t.cursor_position.2) }
        else none
  else if t.cursor_position.2 > 0 then
    match t.content.get? t.cursor_position.2 with
    | none => none
    | some cur =>
        let content2 := t.content.eraseIdx t.cursor_position.2
        let ln := t.cursor_position.2 - 1
        match content2.get? ln with
        | none => none
        | some prev =>
            some { t with
                     content := content2.set ln (prev ++ cur)
                     cursor_position := (prev.length, ln) }
  else some t

/-- Editor::delete_char on the active tab: remove the character under the
cursor, or merge the next line at end-of-line. -/
def deleteCharTab (t0 : Tab) : Option Tab :=
  let t := saveStateTab t0
  match t.content.get? t.cursor_position.2 with
  | none => none
  | some line =>
      if t.cursor_position.1 < line.length then
        some { t with
                 content := t.content.set t.cursor_position.2
                   (line.eraseIdx t.cursor_position.1) }
      else if t.cursor_position.2 < t.content.length - 1 then
        match t.content.get? (t.cursor_position.2 + 1) with
        | none => none
        | some nxt =>
            some { t with
                     content := (t.content.eraseIdx (t.cursor_position.2 + 1)).set
                       t.cursor_position.2 (line ++ nxt) }
      else some t

/-- Editor::insert_line_below on the active tab. -/
def insertLineBelowTab (t0 : Tab) : Tab :=
  let t := saveStateTab t0
  { t with
      content := t.content.insertIdx (t.cursor_position.2 + 1) []
      cursor_position := (0, t.cursor_position.2 + 1) }

/-- Editor::insert_line_above on the active tab. -/
def insertLineAboveTab (t0 : Tab) : Tab :=
  let t := saveStateTab t0
  { t with
      content := t.content.insertIdx t.cursor_position.2 []
      cursor_position := (0, t.cursor_position.2) }

/-! ## Cursor movement and viewport -/

/-- Editor::move_cursor_up on the active tab. -/
def moveCursorUpTab (t : Tab) : Tab :=
  if t.cursor_position.2 > 0 then
    let t2 := { t with cursor_position := (t.cursor_position.1, t.cursor_position.2 - 1) }
    if t2.cursor_position.2 < t2.scroll_offset then
      { t2 with scroll_offset := t2.cursor_position.2 }
    else t2
  else t

/-- Editor::move_cursor_down on the active tab. The source computes
`content.len() - 1` on a usize, which panics in a debug build when the
buffer is empty; that case is `none` here. -/
def moveCursorDownTab (t : Tab) : Option Tab :=
  if t.content.length = 0 then none
  else if t.cursor_position.2 < t.content.length - 1 then
    let t2 := { t with cursor_position := (t.cursor_position.1, t.cursor_position.2 + 1) }
    if t2.cursor_position.2 ≥ t2.scroll_offset + editorHeight then
      some { t2 with scroll_offset := t2.cursor_position.2 - editorHeight + 1 }
    else some t2
  else some t

/-- Editor::move_cursor_left on the active tab: move within the line, or
wrap to the end of the previous line. -/
def moveCursorLeftTab (t : Tab) : Option Tab :=
  if t.cursor_position.1 > 0 then
    let t2 := { t with cursor_position := (t.cursor_position.1 - 1, t.cursor_position.2) }
    if t2.cursor_position.1 < t2.horizontal_scroll then
      some { t2 with horizontal_scroll := t2.cursor_position.1 }
    else some t2
  else if t.cursor_position.2 > 0 then
    match t.content.get? (t.cursor_position.2 - 1) with
    | none => none
    | some prev =>
        some (adjustHorizontalScroll
          { t with cursor_position := (prev.length, t.cursor_position.2 - 1) })
  else some t

/-- Editor::move_cursor_right on the active tab: move within the line, or
wrap to column 0 of the next line. -/
def moveCursorRightTab (t : Tab) : Option Tab :=
  match t.content.get? t.cursor_position.2 with
  | none => none
  | some line =>
      if t.cursor_position.1 < line.length then
        some (adjustHorizontalScroll
          { t with cursor_position := (t.cursor_position.1 + 1, t.cursor_position.2) })
      else if t.cursor_position.2 < t.content.length - 1 then
        some { t with
                 cursor_position := (0, t.cursor_position.2 + 1)
                 horizontal_scroll := 0 }
      else some t

/-- Editor::move_cursor_start_of_line on the active tab. -/
def moveCursorStartOfLineTab (t : Tab) : Tab :=
  adjustHorizontalScroll { t with cursor_position := (0, t.cursor_position.2) }

/-- Editor::move_cursor_end_of_line on the active tab. -/
def moveCursorEndOfLineTab (t : Tab) : Option Tab :=
  match t.content.get? t.cursor_position.2 with
  | none => none
  | some line =>
      some (adjustHorizontalScroll
        { t with cursor_position := (line.length, t.cursor_position.2) })

/-- Editor::page_up on the active tab. -/
def pageUpTab (t : Tab) : Tab :=
  let off := if t.scroll_offset > editorHeight then t.scroll_offset - editorHeight else 0
  { t with scroll_offset := off, cursor_position := (t.cursor_position.1, off) }

/-- Editor::page_down on the active tab. The final clamp computes
`content.len() - 1`, a debug-build panic on an empty buffer. -/
def pageDownTab (t : Tab) : Option Tab :=
  let maxScroll := t.content.length - editorHeight
  let off := if t.scroll_offset + editorHeight < maxScroll then
               t.scroll_offset + editorHeight
             else maxScroll
  let ln := off + editorHeight - 1
  if t.content.length = 0 then none
  else if ln ≥ t.content.length then
    some { t with scroll_offset := off
                  cursor_position := (t.cursor_position.1, t.content.length - 1) }
  else
    some { t with scroll_offset := off, cursor_position := (t.cursor_position.1, ln) }

/-- Editor::ensure_cursor_in_bounds on the active tab: refill an empty
buffer with one empty line, clamp the line index to `[0, len - 1]` and the
column to `[0, line length]`. The line indexed after clamping is always in
range, so `getD` is exact. -/
def ensureCursorInBoundsTab (t : Tab) : Tab :=
  let content := if t.content.isEmpty then t.content ++ [[]] else t.content
  let ln := min t.cursor_position.2 (content.length - 1)
  let lineLen := ((content.get? ln).getD []).length
  { t with content := content, cursor_position := (min t.cursor_position.1 lineLen, ln) }

/-- Editor::ensure_cursor_visible on the active tab: vertical scroll sync
against the fixed visible height. -/
def ensureCursorVisibleTab (t : Tab) : Tab :=
  if t.cursor_position.2 < t.scroll_offset then
    { t with scroll_offset := t.cursor_position.2 }
  else if t.cursor_position.2 ≥ t.scroll_offset + editorHeight then
    { t with scroll_offset := t.cursor_position.2 - editorHeight + 1 }
  else t

/-! ## Editor-level plumbing -/

/-- Runs an operation on `self.tabs[self.active_tab]`: the Rust indexing
panics (`none`) when the index is out of range, and the mutated tab is
written back in place. -/
def withActiveTab (e : Editor) (f : Tab → Option Tab) : Option Editor :=
  match e.tabs.get? e.active_tab with
  | none => none
  | some t =>
      match f t with
      | none => none
      | some t2 => some { e with tabs := e.tabs.set e.active_tab t2 }

/-- Editor::update_current_tab_info: copy the active tab's fields into the
editor-level mirror fields. -/
def updateCurrentTabInfo (e : Editor) : Option Editor :=
  match e.tabs.get? e.active_tab with
  | none => none
  | some t =>
      some { e with
               content := t.content
               cursor_position := t.cursor_position
               scroll_offset := t.scroll_offset
               horizontal_scroll := t.horizontal_scroll
               current_file := t.current_file
               synLabel := t.synLabel }

/-- Editor::delete_line: when the cursor line is in range, save state,
remove the line, hand it to the clipboard with
`set_contents(line).unwrap()` (a panic when the clipboard fails), refill
an emptied buffer, pull the cursor line back in range and reset the
column. -/
def deleteLine (e : Editor) : Option Editor :=
  match e.tabs.get? e.active_tab with
  | none => none
  | some t0 =>
      if t0.cursor_position.2 < t0.content.length then
        let t := saveStateTab t0
        match t.content.get? t.cursor_position.2 with
        | none => none
        | some line =>
            if e.clipboard_context.fails then none
            else
              let content1 := t.content.eraseIdx t.cursor_position.2
              let content2 := if content1.isEmpty then content1 ++ [[]] else content1
              let cy := t.cursor_position.2
              let ln := if cy = content2.length ∧ cy > 0 then cy - 1 else cy
              some { e with
                       clipboard_context := { e.clipboard_context with contents := line }
                       tabs := e.tabs.set e.active_tab
                         { t with content := content2, cursor_position := (0, ln) } }
      else some e

/-- Editor::yank_line: save state unconditionally; when the cursor line is
in range, copy it to the clipboard with `set_contents(line).unwrap()` (a
panic when the clipboard fails). -/
def yankLine (e : Editor) : Option Editor :=
  match e.tabs.get? e.active_tab with
  | none => none
  | some t0 =>
      let t := saveStateTab t0
      match t.content.get? t.cursor_position.2 with
      | none => some { e with tabs := e.tabs.set e.active_tab t }
      | some line =>
          if e.clipboard_context.fails then none
          else
            some { e with
                     clipboard_context := { e.clipboard_context with contents := line }
                     tabs := e.tabs.set e.active_tab t }

/-- Rust `str::split('\n')`: always at least one piece. -/
def splitNL : List Char → List (List Char)
  | [] => [[]]
  | c :: rest =>
      if c = '\n' then [] :: splitNL rest
      else
        match splitNL rest with
        | [] => [[c]]
        | piece :: pieces => (c :: piece) :: pieces

/-- Editor::paste_after: when `get_contents` succeeds, save state, split
the clipboard text at the cursor into the current line, splice the pieces
in, and place the cursor; `ensure_cursor_in_bounds` runs in every case.
The source pushes one empty line when the cursor line is at the buffer
length and then indexes `content[current_line]`, so a cursor line strictly
beyond the length still panics. -/
def pasteAfter (e : Editor) : Option Editor :=
  let step1 : Option Editor :=
    if e.clipboard_context.fails then some e
    else
      match e.tabs.get? e.active_tab with
      | none => none
      | some t0 =>
          let t := saveStateTab t0
          let cl := t.cursor_position.2
          let cc := t.cursor_position.1
          let content0 := if cl ≥ t.content.length then t.content ++ [[]] else t.content
          match content0.get? cl with
          | none => none
          | some line =>
              let left := line.take (min cc line.length)
              let right := line.drop (min cc line.length)
              match splitNL e.clipboard_context.contents with
              | [] => none
              | first :: restLines =>
                  let combined := (left ++ first) :: (restLines ++ [right])
                  let content2 := content0.take cl ++ combined ++ content0.drop (cl + 1)
                  let lastIdx := cl + combined.length - 1
                  match content2.get? lastIdx with
                  | none => none
                  | some lastLine =>
                      some { e with
                               tabs := e.tabs.set e.active_tab
                                 { t with
                                     content := content2
                                     cursor_position :=
                                       (lastLine.length - right.length, lastIdx) } }
  match step1 with
  | none => none
  | some e2 => withActiveTab e2 (fun t => some (ensureCursorInBoundsTab t))

/-- Editor::paste_clipboard: on clipboard failure push a debug message;
otherwise save state and insert the clipboard text at the cursor, either
into the current line (single-line paste) or splitting the current line
around the pasted block (multi-line paste). The source's `insert_str` and
`split_off` panic when the column is past the end of the line. -/
def pasteClipboard (e : Editor) : Option Editor :=
  if e.clipboard_context.fails then
    some { e with debug_messages := e.debug_messages ++ ["Failed to paste from clipboard"] }
  else
    match e.tabs.get? e.active_tab with
    | none => none
    | some t0 =>
        let t := saveStateTab t0
        let pasted := e.clipboard_context.contents
        let lines := splitNL pasted
        match t.content.get? t.cursor_position.2 with
        | none => none
        | some line =>
            if t.cursor_position.1 ≤ line.length then
              if lines.length = 1 then
                some { e with
                         tabs := e.tabs.set e.active_tab
                           { t with
                               content := t.content.set t.cursor_position.2
                                 (line.take t.cursor_position.1 ++ pasted ++
                                   line.drop t.cursor_position.1)
                               cursor_position :=
                                 (t.cursor_position.1 + pasted.length, t.cursor_position.2) } }
              else
                let cy := t.cursor_position.2
                let rest := line.drop t.cursor_position.1
                let firstLine := line.take t.cursor_position.1 ++ lines.headI
                let middle := (lines.drop 1).take (lines.length - 2)
                let lastL := lines.getLast?.getD []
                let content1 := t.content.set cy firstLine
                let content2 := content1.take (cy + 1) ++ middle ++
                  ((lastL ++ rest) :: content1.drop (cy + 1))
                some { e with
                         tabs := e.tabs.set e.active_tab
                           { t with
                               content := content2
                               cursor_position := (lastL.length, cy + middle.length + 1) } }
            else none

/-! ## Selection model -/

/-- Rust tuple comparison on `(usize, usize)`: lexicographic on the first
component, which for `cursor_position` is the COLUMN (the source compares
`(col, line)` pairs, not `(line, col)`). -/
def tupleLe (p q : Nat × Nat) : Prop :=
  p.1 < q.1 ∨ (p.1 = q.1 ∧ p.2 ≤ q.2)

instance (p q : Nat × Nat) : Decidable (tupleLe p q) := by
  unfold tupleLe; infer_instance

/-- The `(index, line)` pairs visited by the copy_selection loop:
`content.iter().enumerate().skip(start.1).take(end.1 - start.1 + 1)`. -/
def selectionSlice (s en : Nat × Nat) (content : List (List Char)) :
    List (Nat × List Char) :=
  (content.enum.drop s.2).take (en.2 - s.2 + 1)

/-- The text accumulated by the copy_selection loop body. For each visited
line: the suffix from `start.col` when the index equals the start line
(this branch is checked FIRST, so it also captures single-line
selections), else the prefix up to `end.col` on the end line, else the
whole line; a newline separates every line except the end line. -/
def renderSelection (s en : Nat × Nat) : List (Nat × List Char) → List Char
  | [] => []
  | (i, line) :: rest =>
      let piece :=
        if i = s.2 then line.drop s.1
        else if i = en.2 then line.take en.1
        else line
      piece ++ (if i = en.2 then [] else ['\n']) ++ renderSelection s en rest

/-- The text Editor::copy_selection extracts from the active tab, given
the editor's `visual_start` and the tab's cursor. The loop bound
`end.1 - start.1 + 1` underflows when normalization by `(col, line)` order
puts the end on an earlier line, a debug-build panic modelled as `none`. -/
def copySelectionText (e : Editor) (t : Tab) : Option (List Char) :=
  let p := e.visual_start
  let q := t.cursor_position
  let s := if tupleLe p q then p else q
  let en := if tupleLe p q then q else p
  if en.2 < s.2 then none
  else some (renderSelection s en (selectionSlice s en t.content))

/-- Editor::copy_selection: extract the selected text and hand it to the
clipboard; a clipboard failure is reported as a debug message and leaves
the buffer untouched. -/
def copySelection (e : Editor) : Option Editor :=
  match e.tabs.get? e.active_tab with
  | none => none
  | some t =>
      match copySelectionText e t with
      | none => none
      | some txt =>
          if e.clipboard_context.fails then
            some { e with
                     debug_messages := e.debug_messages ++ ["Failed to copy to clipboard"] }
          else
            some { e with
                     clipboard_context := { e.clipboard_context with contents := txt }
                     debug_messages := e.debug_messages ++ ["Text copied to clipboard"] }

/-- Editor::delete_selection: save state, normalize `visual_start` and the
cursor by `(col, line)` tuple order, splice the selected span out and put
the cursor at the normalized start. `replace_range`, the boundary slices
and `drain` panic (`none`) when an index is past the end or the normalized
end line precedes the start line. -/
def deleteSelection (e : Editor) : Option Editor :=
  match e.tabs.get? e.active_tab with
  | none => none
  | some t0 =>
      let t := saveStateTab t0
      let p := e.visual_start
      let q := t.cursor_position
      let s := if tupleLe p q then p else q
      let en := if tupleLe p q then q else p
      if s.2 = en.2 then
        match t.content.get? s.2 with
        | none => none
        | some line =>
            if en.1 < line.length then
              some { e with
                       tabs := e.tabs.set e.active_tab
                         { t with
                             content := t.content.set s.2
                               (line.take s.1 ++ line.drop (en.1 + 1))
                             cursor_position := s } }
            else none
      else if en.2 < s.2 then none
      else
        match t.content.get? s.2, t.content.get? en.2 with
        | some sLine, some enLine =>
            if s.1 ≤ sLine.length ∧ en.1 + 1 ≤ enLine.length then
              let newLine := sLine.take s.1 ++ enLine.drop (en.1 + 1)
              some { e with
                       tabs := e.tabs.set e.active_tab
                         { t with
                             content := t.content.take s.2 ++ newLine ::
                               t.content.drop (en.2 + 1)
                             cursor_position := s } }
            else none
        | _, _ => none

/-! ## Undo/redo, tab lifecycle, search, toggles -/

/-- Editor::undo on the active tab. -/
def undoE (e : Editor) : Option Editor :=
  withActiveTab e (fun t => some (undoTab t))

/-- Editor::redo on the active tab. -/
def redoE (e : Editor) : Option Editor :=
  withActiveTab e (fun t => some (redoTab t))

/-- Editor::switch_to_tab: activate a valid index (plus mirror sync),
otherwise only report. -/
def switchToTab (n : Nat) (e : Editor) : Option Editor :=
  if n < e.tabs.length then
    updateCurrentTabInfo
      { e with
          active_tab := n
          debug_messages := e.debug_messages ++ ["Switched to tab " ++ toString (n + 1)] }
  else
    some { e with
             debug_messages := e.debug_messages ++
               ["Tab " ++ toString (n + 1) ++ " does not exist"] }

/-- Editor::next_tab: cycle forward with wraparound. -/
def nextTab (e : Editor) : Option Editor :=
  if e.tabs.isEmpty then some e
  else updateCurrentTabInfo { e with active_tab := (e.active_tab + 1) % e.tabs.length }

/-- Editor::previous_tab: cycle backward with wraparound. -/
def previousTab (e : Editor) : Option Editor :=
  if e.tabs.isEmpty then some e
  else
    updateCurrentTabInfo
      { e with active_tab := (e.active_tab + e.tabs.length - 1) % e.tabs.length }

/-- Editor::new_tab: reuse a sole still-empty, never-named scratch tab,
otherwise append a fresh tab and activate it. (`update_tab_name` only
computes a discarded local, modelled as the identity.) -/
def newTab (e : Editor) : Editor :=
  match e.tabs with
  | [t] =>
      if t.content = [[]] ∧ t.current_file = none then { e with active_tab := 0 }
      else { e with tabs := e.tabs ++ [Tab.new], active_tab := e.tabs.length }
  | _ => { e with tabs := e.tabs ++ [Tab.new], active_tab := e.tabs.length }

/-- Editor::close_tab: refuse on a single tab; otherwise `Vec::remove` the
active tab (a panic when the index is out of range), clamp the active
index and sync the mirror fields. -/
def closeTab (e : Editor) : Option Editor :=
  if e.tabs.length > 1 then
    if e.active_tab < e.tabs.length then
      let tabs2 := e.tabs.eraseIdx e.active_tab
      let act := if e.active_tab ≥ tabs2.length then tabs2.length - 1 else e.active_tab
      updateCurrentTabInfo { e with tabs := tabs2, active_tab := act }
    else none
  else some e

/-- Rust `str::find` on character lists: index of the first occurrence of
`needle` (the empty needle matches at 0, as in Rust). -/
def findSub (needle : List Char) : List Char → Option Nat
  | [] => if needle.isEmpty then some 0 else none
  | c :: rest =>
      if needle.isPrefixOf (c :: rest) then some 0
      else (findSub needle rest).map (· + 1)

/-- Editor::enter_search_mode. -/
def enterSearchMode (e : Editor) : Editor :=
  { e with
      mode := Mode.Search
      search_query := []
      search_results := []
      current_search_index := 0 }

/-- Editor::perform_search: collect, per line, the first lowercased match
of the lowercased query as `(line, column)`; reset the result index and
jump the cursor to the first result when there is one. -/
def performSearch (e : Editor) : Option Editor :=
  match e.tabs.get? e.active_tab with
  | none => none
  | some t =>
      let results := t.content.enum.filterMap (fun li =>
        (findSub (e.search_query.map Char.toLower) (li.2.map Char.toLower)).map
          (fun col => (li.1, col)))
      let e2 := { e with search_results := results, current_search_index := 0 }
      match results with
      | [] => some e2
      | (ln, col) :: _ =>
          some { e2 with
                   tabs := e2.tabs.set e2.active_tab
                     { t with cursor_position := (col, ln) } }

/-- Editor::next_search_result: advance the result index cyclically and
jump the cursor to the (possibly stale) stored position. -/
def nextSearchResult (e : Editor) : Option Editor :=
  if e.search_results.isEmpty then some e
  else
    let idx := (e.current_search_index + 1) % e.search_results.length
    match e.search_results.get? idx with
    | none => none
    | some r =>
        match e.tabs.get? e.active_tab with
        | none => none
        | some t =>
            some { e with
                     current_search_index := idx
                     tabs := e.tabs.set e.active_tab
                       { t with cursor_position := (r.2, r.1) } }

/-- Editor::previous_search_result: mirror of `nextSearchResult`. -/
def previousSearchResult (e : Editor) : Option Editor :=
  if e.search_results.isEmpty then some e
  else
    let idx := (e.current_search_index + e.search_results.length - 1) %
      e.search_results.length
    match e.search_results.get? idx with
    | none => none
    | some r =>
        match e.tabs.get? e.active_tab with
        | none => none
        | some t =>
            some { e with
                     current_search_index := idx
                     tabs := e.tabs.set e.active_tab
                       { t with cursor_position := (r.2, r.1) } }

/-- Editor::toggle_debug_menu. -/
def toggleDebugMenu (e : Editor) : Editor :=
  { e with
      show_debug := !e.show_debug
      debug_messages := e.debug_messages ++
        [if !e.show_debug then "Debug menu shown" else "Debug menu hidden"] }

/-- Editor::toggle_sidebar: flip the flag and switch between SidebarActive
and Normal modes (the directory listing it loads is an external
collaborator and is not modelled). -/
def toggleSidebar (e : Editor) : Editor :=
  if !e.show_sidebar then
    { e with show_sidebar := true, mode := Mode.SidebarActive }
  else
    { e with show_sidebar := false, mode := Mode.Normal }

/-- Editor::toggle_minimap: refuse to show the minimap when every line of
the active tab is empty. -/
def toggleMinimap (e : Editor) : Option Editor :=
  if !e.show_minimap then
    match e.tabs.get? e.active_tab with
    | none => none
    | some t =>
        if !(t.content.all List.isEmpty) then
          some { e with
                   show_minimap := true
                   debug_messages := e.debug_messages ++ ["Minimap shown"] }
        else
          some { e with
                   debug_messages := e.debug_messages ++
                     ["Cannot show minimap: No content"] }
  else
    some { e with
             show_minimap := false
             debug_messages := e.debug_messages ++ ["Minimap hidden"] }

/-! ## Key dispatch (Normal mode) -/

/-- Editor-level wrappers for the tab-level primitives, each acting on
`self.tabs[self.active_tab]` like the source methods. -/
def insertChar (c : Char) (e : Editor) : Option Editor :=
  withActiveTab e (insertCharTab c)

def insertNewline (e : Editor) : Option Editor :=
  withActiveTab e insertNewlineTab

def backspace (e : Editor) : Option Editor :=
  withActiveTab e backspaceTab

def deleteChar (e : Editor) : Option Editor :=
  withActiveTab e deleteCharTab

def insertLineBelow (e : Editor) : Option Editor :=
  withActiveTab e (fun t => some (insertLineBelowTab t))

def insertLineAbove (e : Editor) : Option Editor :=
  withActiveTab e (fun t => some (insertLineAboveTab t))

def moveCursorUp (e : Editor) : Option Editor :=
  withActiveTab e (fun t => some (moveCursorUpTab t))

def moveCursorDown (e : Editor) : Option Editor :=
  withActiveTab e moveCursorDownTab

def moveCursorLeft (e : Editor) : Option Editor :=
  withActiveTab e moveCursorLeftTab

def moveCursorRight (e : Editor) : Option Editor :=
  withActiveTab e moveCursorRightTab

def moveCursorStartOfLine (e : Editor) : Option Editor :=
  withActiveTab e (fun t => some (moveCursorStartOfLineTab t))

def moveCursorEndOfLine (e : Editor) : Option Editor :=
  withActiveTab e moveCursorEndOfLineTab

def pageUp (e : Editor) : Option Editor :=
  withActiveTab e (fun t => some (pageUpTab t))

def pageDown (e : Editor) : Option Editor :=
  withActiveTab e pageDownTab

def ensureCursorInBounds (e : Editor) : Option Editor :=
  withActiveTab e (fun t => some (ensureCursorInBoundsTab t))

def ensureCursorVisible (e : Editor) : Option Editor :=
  withActiveTab e (fun t => some (ensureCursorVisibleTab t))

/-- The key events the Normal-mode dispatch distinguishes (KeyCode in the
source, restricted to unmodified keys; modified chords reach the resolver
only through their canonical strings, which the modelled bindings for
plain characters never collide with). -/
inductive Key where
  | Char (c : Char)
  | Left
  | Right
  | Up
  | Down
  | Home
  | EndKey
  | PageUp
  | PageDown
  | TabKey
  | BackTab
  | Enter
  | Esc
  | Backspace
  | Delete
  | InsertKey
deriving DecidableEq

/-- Editor::key_event_to_string for the modelled (unmodified) keys. -/
def keyToString : Key → String
  | Key.Char c => String.mk [c]
  | Key.Left => "Left"
  | Key.Right => "Right"
  | Key.Up => "Up"
  | Key.Down => "Down"
  | Key.Home => "Home"
  | Key.EndKey => "End"
  | Key.PageUp => "PageUp"
  | Key.PageDown => "PageDown"
  | Key.TabKey => "Tab"
  | Key.BackTab => "BackTab"
  | Key.Enter => "Enter"
  | Key.Esc => "Esc"
  | Key.Backspace => "Backspace"
  | Key.Delete => "Delete"
  | Key.InsertKey => "Insert"

/-- Rust str::starts_with on the underlying character lists: does `s`
start with `pre`? -/
def strStartsWith (s pre : String) : Bool :=
  pre.data.isPrefixOf s.data

/-- First-match lookup in the keybinding association list (the HashMap
lookup of the source; the only duplicated key maps to the same action). -/
def lookupAction (bindings : List (String × String)) (k : String) : Option String :=
  match bindings with
  | [] => none
  | (key, act) :: rest => if key = k then some act else lookupAction rest k

/-- Editor::execute_action: the action table of the source. Actions whose
whole effect lives in an external collaborator (`enter_directory_nav_mode`
loads a directory listing, `toggle_sidebar` loads one as well) keep only
their effect on the modelled state. -/
def executeAction (e : Editor) (action : String) : Option Editor :=
  match action with
  | "enter_insert_mode" => some { e with mode := Mode.Insert }
  | "append" => moveCursorRight { e with mode := Mode.Insert }
  | "open_line_below" =>
      (insertLineBelow e).map (fun e2 => { e2 with mode := Mode.Insert })
  | "open_line_above" =>
      (insertLineAbove e).map (fun e2 => { e2 with mode := Mode.Insert })
  | "delete_line" => deleteLine e
  | "yank_line" => yankLine e
  | "paste_after" => pasteAfter e
  | "enter_visual_mode" =>
      some { e with mode := Mode.Visual, visual_start := e.cursor_position }
  | "enter_command_mode" => some { e with mode := Mode.Command, command_buffer := "" }
  | "toggle_debug_menu" => some (toggleDebugMenu e)
  | "enter_directory_nav_mode" => some { e with mode := Mode.DirectoryNav }
  | "enter_search_mode" => some (enterSearchMode e)
  | "next_search_result" => nextSearchResult e
  | "previous_search_result" => previousSearchResult e
  | "copy_selection" => copySelection e
  | "paste_clipboard" => pasteClipboard e
  | "undo" => undoE e
  | "redo" => redoE e
  | "toggle_sidebar" => some (toggleSidebar e)
  | "next_tab" => (nextTab e).bind updateCurrentTabInfo
  | "previous_tab" => (previousTab e).bind updateCurrentTabInfo
  | "switch_to_tab_1" => (switchToTab 0 e).bind updateCurrentTabInfo
  | "switch_to_tab_2" => (switchToTab 1 e).bind updateCurrentTabInfo
  | "switch_to_tab_3" => (switchToTab 2 e).bind updateCurrentTabInfo
  | "switch_to_tab_4" => (switchToTab 3 e).bind updateCurrentTabInfo
  | "switch_to_tab_5" => (switchToTab 4 e).bind updateCurrentTabInfo
  | "switch_to_tab_6" => (switchToTab 5 e).bind updateCurrentTabInfo
  | "switch_to_tab_7" => (switchToTab 6 e).bind updateCurrentTabInfo
  | "switch_to_tab_8" => (switchToTab 7 e).bind updateCurrentTabInfo
  | "switch_to_tab_9" => (switchToTab 8 e).bind updateCurrentTabInfo
  | "new_tab" => updateCurrentTabInfo (newTab e)
  | "close_tab" => (closeTab e).bind updateCurrentTabInfo
  | "toggle_minimap" => toggleMinimap e
  | _ => some e

/-- The single-key half of Editor::handle_normal_mode (entered with
`pending_key` already taken): resolve the key as a binding, else buffer it
when some binding has it as a proper prefix, else fall through to the
built-in motions. -/
def handleNormalSingle (e : Editor) (keyStr : String) (k : Key) : Option Editor :=
  match lookupAction e.keybindings keyStr with
  | some act => executeAction e act
  | none =>
      if e.keybindings.any (fun kv => strStartsWith kv.1 keyStr) then
        some { e with pending_key := some keyStr }
      else
        match k with
        | Key.Left => moveCursorLeft e
        | Key.Down => moveCursorDown e
        | Key.Up => moveCursorUp e
        | Key.Right => moveCursorRight e
        | Key.Home => moveCursorStartOfLine e
        | Key.EndKey => moveCursorEndOfLine e
        | Key.PageUp => pageUp e
        | Key.PageDown => pageDown e
        | Key.TabKey => (nextTab e).bind updateCurrentTabInfo
        | Key.BackTab => (previousTab e).bind updateCurrentTabInfo
        | _ => some e

/-- Editor::handle_normal_mode: take the pending key, try the
concatenated compound binding first, then the single-key path. -/
def handleNormalMode (e : Editor) (k : Key) : Option Editor :=
  let keyStr := keyToString k
  match e.pending_key with
  | some p =>
      let e2 := { e with pending_key := none }
      match lookupAction e2.keybindings (p ++ keyStr) with
      | some act => executeAction e2 act
      | none => handleNormalSingle e2 keyStr k
  | none => handleNormalSingle e keyStr k

/-! ## The reachable-state transition system

An `Op` is one invocation of an editing-core method of the source (one
step of the event loop acting on the modelled state); `stepOp` gives its
successor state, `none` when the source would panic. `Reachable` is the
closure of `Editor.new` under all of them, including arbitrary action
strings and arbitrary Normal-mode keys, so it covers every state the key
dispatch can produce. -/

inductive Op where
  | insertChar (c : Char)
  | insertNewline
  | backspace
  | deleteChar
  | deleteLine
  | insertLineBelow
  | insertLineAbove
  | yankLine
  | pasteAfter
  | pasteClipboard
  | copySelection
  | deleteSelection
  | moveLeft
  | moveRight
  | moveUp
  | moveDown
  | moveHome
  | moveEnd
  | pageUp
  | pageDown
  | undo
  | redo
  | ensureCursorInBounds
  | ensureCursorVisible
  | enterMode (m : Mode)
  | enterVisualMode
  | enterCommandMode
  | enterSearchMode
  | searchChar (c : Char)
  | searchBackspace
  | performSearch
  | nextSearchResult
  | previousSearchResult
  | commandChar (c : Char)
  | commandBackspace
  | switchToTab (n : Nat)
  | nextTab
  | previousTab
  | newTab
  | closeTab
  | toggleDebugMenu
  | toggleSidebar
  | toggleMinimap
  | action (s : String)
  | normalKey (k : Key)

/-- The successor state of one editing-core step. -/
def stepOp (op : Op) (e : Editor) : Option Editor :=
  match op with
  | Op.insertChar c => insertChar c e
  | Op.insertNewline => insertNewline e
  | Op.backspace => backspace e
  | Op.deleteChar => deleteChar e
  | Op.deleteLine => deleteLine e
  | Op.insertLineBelow => insertLineBelow e
  | Op.insertLineAbove => insertLineAbove e
  | Op.yankLine => yankLine e
  | Op.pasteAfter => pasteAfter e
  | Op.pasteClipboard => pasteClipboard e
  | Op.copySelection => copySelection e
  | Op.deleteSelection => deleteSelection e
  | Op.moveLeft => moveCursorLeft e
  | Op.moveRight => moveCursorRight e
  | Op.moveUp => moveCursorUp e
  | Op.moveDown => moveCursorDown e
  | Op.moveHome => moveCursorStartOfLine e
  | Op.moveEnd => moveCursorEndOfLine e
  | Op.pageUp => pageUp e
  | Op.pageDown => pageDown e
  | Op.undo => undoE e
  | Op.redo => redoE e
  | Op.ensureCursorInBounds => ensureCursorInBounds e
  | Op.ensureCursorVisible => ensureCursorVisible e
  | Op.enterMode m => some { e with mode := m }
  | Op.enterVisualMode => executeAction e "enter_visual_mode"
  | Op.enterCommandMode => executeAction e "enter_command_mode"
  | Op.enterSearchMode => some (enterSearchMode e)
  | Op.searchChar c => some { e with search_query := e.search_query ++ [c] }
  | Op.searchBackspace => some { e with search_query := e.search_query.dropLast }
  | Op.performSearch => performSearch e
  | Op.nextSearchResult => nextSearchResult e
  | Op.previousSearchResult => previousSearchResult e
  | Op.commandChar c =>
      some { e with command_buffer := e.command_buffer ++ String.mk [c] }
  | Op.commandBackspace =>
      some { e with command_buffer := ⟨e.command_buffer.data.dropLast⟩ }
  | Op.switchToTab n => switchToTab n e
  | Op.nextTab => nextTab e
  | Op.previousTab => previousTab e
  | Op.newTab => some (newTab e)
  | Op.closeTab => closeTab e
  | Op.toggleDebugMenu => some (toggleDebugMenu e)
  | Op.toggleSidebar => some (toggleSidebar e)
  | Op.toggleMinimap => toggleMinimap e
  | Op.action s => executeAction e s
  | Op.normalKey k => handleNormalMode e k

/-- The editor states reachable from `Editor::new` by editing-core steps
(a step that would panic has no successor). -/
inductive Reachable : Editor → Prop where
  | init : Reachable Editor.new
  | next {e e2 : Editor} (op : Op) : Reachable e → stepOp op e = some e2 → Reachable e2

/-! ## The inductive invariant -/

/-- Per-tab strengthened invariant: the buffer is never empty, and every
snapshot sitting on either history stack records a non-empty buffer (so
that undo/redo restore only non-empty buffers). -/
def tabInv (t : Tab) : Prop :=
  t.content ≠ [] ∧
    (∀ op ∈ t.undo_stack, op.content ≠ []) ∧
    (∀ op ∈ t.redo_stack, op.content ≠ [])

/-- Editor-level inductive invariant: the tab collection is never empty,
the active index is in range, and every tab satisfies `tabInv`. -/
def Inv (e : Editor) : Prop :=
  e.tabs ≠ [] ∧ e.active_tab < e.tabs.length ∧ ∀ t ∈ e.tabs, tabInv t

theorem ne_nil_of_get?_eq_some {l : List α} {n : Nat} {a : α}
    (h : l.get? n = some a) : l ≠ [] := by
  intro hn
  subst hn
  simp at h

theorem ne_nil_of_set {l : List α} {n : Nat} {a : α} (h : l ≠ []) :
    l.set n a ≠ [] := by
  intro hn
  apply h
  have := congrArg List.length hn
  simp only [List.length_set] at this
  exact List.eq_nil_of_length_eq_zero this

theorem tabInv_saveState {t : Tab} (h : tabInv t) : tabInv (saveStateTab t) := by
  obtain ⟨h1, h2, _⟩ := h
  refine ⟨h1, ?_, ?_⟩
  · intro op hop
    simp only [saveStateTab] at hop
    split at hop
    · have hmem : op ∈ snapshotOf t :: t.undo_stack := List.dropLast_subset _ hop
      rcases List.mem_cons.mp hmem with hh | hh
      · subst hh; exact h1
      · exact h2 _ hh
    · rcases List.mem_cons.mp hop with hh | hh
      · subst hh; exact h1
      · exact h2 _ hh
  · intro op hop
    simp only [saveStateTab] at hop
    simp at hop

theorem tabInv_content_stacks {t t2 : Tab} (h : tabInv t)
    (hc : t2.content ≠ []) (hu : t2.undo_stack = t.undo_stack)
    (hr : t2.redo_stack = t.redo_stack) : tabInv t2 := by
  obtain ⟨_, h2, h3⟩ := h
  exact ⟨hc, by rw [hu]; exact h2, by rw [hr]; exact h3⟩

theorem adjustHS_content (t : Tab) : (adjustHorizontalScroll t).content = t.content := by
  unfold adjustHorizontalScroll
  split
  · rfl
  · split <;> rfl

theorem adjustHS_undo (t : Tab) :
    (adjustHorizontalScroll t).undo_stack = t.undo_stack := by
  unfold adjustHorizontalScroll
  split
  · rfl
  · split <;> rfl

theorem adjustHS_redo (t : Tab) :
    (adjustHorizontalScroll t).redo_stack = t.redo_stack := by
  unfold adjustHorizontalScroll
  split
  · rfl
  · split <;> rfl

theorem tabInv_adjustHS {t : Tab} (h : tabInv t) :
    tabInv (adjustHorizontalScroll t) :=
  tabInv_content_stacks h (by rw [adjustHS_content]; exact h.1)
    (adjustHS_undo t) (adjustHS_redo t)

theorem ne_nil_insertIdx {l : List α} {n : Nat} {a : α} (h : l ≠ []) :
    l.insertIdx n a ≠ [] := by
  intro hn
  apply h
  have hl := List.length_le_length_insertIdx l a n
  rw [hn] at hl
  simp at hl
  exact hl

theorem tabInv_insertChar {c : Char} {t t2 : Tab}
    (h : tabInv t) (hs : insertCharTab c t = some t2) : tabInv t2 := by
  have hsv := tabInv_saveState h
  unfold insertCharTab at hs
  cases hg : (saveStateTab t).content.get? (saveStateTab t).cursor_position.2 with
  | none => simp only [hg] at hs; cases hs
  | some line =>
      simp only [hg] at hs
      split at hs
      · cases hs
        refine tabInv_content_stacks hsv ?_ ?_ ?_
        · simp only [adjustHorizontalScroll]
          split
          · exact ne_nil_of_set hsv.1
          · split
            · exact ne_nil_of_set hsv.1
            · exact ne_nil_of_set hsv.1
        · simp only [adjustHorizontalScroll]; split <;> try split
          all_goals rfl
        · simp only [adjustHorizontalScroll]; split <;> try split
          all_goals rfl
      · cases hs

theorem tabInv_insertNewline {t t2 : Tab}
    (h : tabInv t) (hs : insertNewlineTab t = some t2) : tabInv t2 := by
  have hsv := tabInv_saveState h
  unfold insertNewlineTab at hs
  cases hg : (saveStateTab t).content.get? (saveStateTab t).cursor_position.2 with
  | none => simp only [hg] at hs; cases hs
  | some line =>
      simp only [hg] at hs
      split at hs
      · cases hs
        exact tabInv_content_stacks hsv
          (ne_nil_insertIdx (ne_nil_of_set hsv.1)) rfl rfl
      · cases hs

theorem tabInv_backspace {t t2 : Tab}
    (h : tabInv t) (hs : backspaceTab t = some t2) : tabInv t2 := by
  have hsv := tabInv_saveState h
  simp only [backspaceTab] at hs
  split at hs
  · split at hs
    · cases hs
    · split at hs
      · cases hs
        exact tabInv_content_stacks hsv (ne_nil_of_set hsv.1) rfl rfl
      · cases hs
  · split at hs
    · split at hs
      · cases hs
      · split at hs
        · cases hs
        · rename_i hg2
          cases hs
          exact tabInv_content_stacks hsv
            (ne_nil_of_set (ne_nil_of_get?_eq_some hg2)) rfl rfl
    · cases hs
      exact hsv

theorem tabInv_deleteChar {t t2 : Tab}
    (h : tabInv t) (hs : deleteCharTab t = some t2) : tabInv t2 := by
  have hsv := tabInv_saveState h
  unfold deleteCharTab at hs
  cases hg : (saveStateTab t).content.get? (saveStateTab t).cursor_position.2 with
  | none => simp only [hg] at hs; cases hs
  | some line =>
      simp only [hg] at hs
      split at hs
      · cases hs
        exact tabInv_content_stacks hsv (ne_nil_of_set hsv.1) rfl rfl
      · split at hs
        · cases hg2 : (saveStateTab t).content.get?
              ((saveStateTab t).cursor_position.2 + 1) with
          | none => simp only [hg2] at hs; cases hs
          | some nxt =>
              simp only [hg2] at hs
              cases hs
              refine tabInv_content_stacks hsv (ne_nil_of_set ?_) rfl rfl
              intro hn
              have hlen := congrArg List.length hn
              simp only [List.length_eraseIdx, List.length_nil] at hlen
              have hpos : 0 < (saveStateTab t).content.length :=
                List.length_pos.mpr hsv.1
              split at hlen <;> omega
        · cases hs
          exact hsv

theorem tabInv_insertLineBelow {t : Tab} (h : tabInv t) :
    tabInv (insertLineBelowTab t) := by
  have hsv := tabInv_saveState h
  unfold insertLineBelowTab
  exact tabInv_content_stacks hsv (ne_nil_insertIdx hsv.1) rfl rfl

theorem tabInv_insertLineAbove {t : Tab} (h : tabInv t) :
    tabInv (insertLineAboveTab t) := by
  have hsv := tabInv_saveState h
  unfold insertLineAboveTab
  exact tabInv_content_stacks hsv (ne_nil_insertIdx hsv.1) rfl rfl

theorem tabInv_moveUp {t : Tab} (h : tabInv t) : tabInv (moveCursorUpTab t) := by
  simp only [moveCursorUpTab]
  split
  · split
    · exact tabInv_content_stacks h h.1 rfl rfl
    · exact tabInv_content_stacks h h.1 rfl rfl
  · exact h

theorem tabInv_moveDown {t t2 : Tab}
    (h : tabInv t) (hs : moveCursorDownTab t = some t2) : tabInv t2 := by
  simp only [moveCursorDownTab] at hs
  split at hs
  · cases hs
  · split at hs
    · split at hs
      · cases hs; exact tabInv_content_stacks h h.1 rfl rfl
      · cases hs; exact tabInv_content_stacks h h.1 rfl rfl
    · cases hs; exact h

theorem tabInv_moveLeft {t t2 : Tab}
    (h : tabInv t) (hs : moveCursorLeftTab t = some t2) : tabInv t2 := by
  simp only [moveCursorLeftTab] at hs
  split at hs
  · split at hs
    · cases hs; exact tabInv_content_stacks h h.1 rfl rfl
    · cases hs; exact tabInv_content_stacks h h.1 rfl rfl
  · split at hs
    · split at hs
      · cases hs
      · cases hs
        exact tabInv_adjustHS (tabInv_content_stacks h h.1 rfl rfl)
    · cases hs; exact h

theorem tabInv_moveRight {t t2 : Tab}
    (h : tabInv t) (hs : moveCursorRightTab t = some t2) : tabInv t2 := by
  unfold moveCursorRightTab at hs
  cases hg : t.content.get? t.cursor_position.2 with
  | none => simp only [hg] at hs; cases hs
  | some line =>
      simp only [hg] at hs
      split at hs
      · cases hs
        exact tabInv_adjustHS (tabInv_content_stacks h h.1 rfl rfl)
      · split at hs
        · cases hs; exact tabInv_content_stacks h h.1 rfl rfl
        · cases hs; exact h

theorem tabInv_moveHome {t : Tab} (h : tabInv t) :
    tabInv (moveCursorStartOfLineTab t) := by
  unfold moveCursorStartOfLineTab
  exact tabInv_adjustHS (tabInv_content_stacks h h.1 rfl rfl)

theorem tabInv_moveEnd {t t2 : Tab}
    (h : tabInv t) (hs : moveCursorEndOfLineTab t = some t2) : tabInv t2 := by
  unfold moveCursorEndOfLineTab at hs
  cases hg : t.content.get? t.cursor_position.2 with
  | none => simp only [hg] at hs; cases hs
  | some line =>
      simp only [hg] at hs
      cases hs
      exact tabInv_adjustHS (tabInv_content_stacks h h.1 rfl rfl)

theorem tabInv_pageUp {t : Tab} (h : tabInv t) : tabInv (pageUpTab t) := by
  unfold pageUpTab
  exact tabInv_content_stacks h h.1 rfl rfl

theorem tabInv_pageDown {t t2 : Tab}
    (h : tabInv t) (hs : pageDownTab t = some t2) : tabInv t2 := by
  simp only [pageDownTab] at hs
  split at hs
  · cases hs
  · split at hs <;> split at hs <;>
      (cases hs; exact tabInv_content_stacks h h.1 rfl rfl)

theorem tabInv_ensureCursorInBounds {t : Tab} (h : tabInv t) :
    tabInv (ensureCursorInBoundsTab t) := by
  unfold ensureCursorInBoundsTab
  refine tabInv_content_stacks h ?_ rfl rfl
  split
  · simp
  · exact h.1

theorem tabInv_ensureCursorVisible {t : Tab} (h : tabInv t) :
    tabInv (ensureCursorVisibleTab t) := by
  unfold ensureCursorVisibleTab
  split
  · exact tabInv_content_stacks h h.1 rfl rfl
  · split
    · exact tabInv_content_stacks h h.1 rfl rfl
    · exact h

theorem tabInv_undo {t : Tab} (h : tabInv t) : tabInv (undoTab t) := by
  obtain ⟨h1, h2, h3⟩ := h
  unfold undoTab
  split
  · exact ⟨h1, h2, h3⟩
  · rename_i op rest heq
    refine ⟨h2 op (by rw [heq]; exact List.mem_cons_self _ _), ?_, ?_⟩
    · intro x hx
      exact h2 x (by rw [heq]; exact List.mem_cons_of_mem _ hx)
    · intro x hx
      rcases List.mem_cons.mp hx with hh | hh
      · subst hh; exact h1
      · exact h3 _ hh

theorem tabInv_redo {t : Tab} (h : tabInv t) : tabInv (redoTab t) := by
  obtain ⟨h1, h2, h3⟩ := h
  unfold redoTab
  split
  · exact ⟨h1, h2, h3⟩
  · rename_i op rest heq
    refine ⟨h3 op (by rw [heq]; exact List.mem_cons_self _ _), ?_, ?_⟩
    · intro x hx
      rcases List.mem_cons.mp hx with hh | hh
      · subst hh; exact h1
      · exact h2 _ hh
    · intro x hx
      exact h3 x (by rw [heq]; exact List.mem_cons_of_mem _ hx)

/-! ## Editor-level invariant preservation -/

theorem tabInv_new : tabInv Tab.new := by
  refine ⟨?_, ?_, ?_⟩ <;> simp [Tab.new]

theorem inv_of_fields {e e2 : Editor} (h : Inv e) (ht : e2.tabs = e.tabs)
    (ha : e2.active_tab = e.active_tab) : Inv e2 := by
  unfold Inv at h ⊢
  rw [ht, ha]
  exact h

theorem inv_set_tab {e : Editor} (h : Inv e) {i : Nat} {t2 : Tab} (ht : tabInv t2)
    {e2 : Editor} (htabs : e2.tabs = e.tabs.set i t2)
    (ha : e2.active_tab = e.active_tab) : Inv e2 := by
  obtain ⟨h1, h2, h3⟩ := h
  refine ⟨?_, ?_, ?_⟩
  · rw [htabs]; exact ne_nil_of_set h1
  · rw [htabs, ha, List.length_set]; exact h2
  · intro t hmem
    rw [htabs] at hmem
    rcases List.mem_or_eq_of_mem_set hmem with hh | hh
    · exact h3 _ hh
    · subst hh; exact ht

theorem tabInv_of_mem_get? {e : Editor} (h : Inv e) {i : Nat} {t : Tab}
    (hg : e.tabs.get? i = some t) : tabInv t :=
  h.2.2 t (List.get?_mem hg)

theorem inv_withActiveTab {e e2 : Editor} {f : Tab → Option Tab}
    (hf : ∀ t t2, tabInv t → f t = some t2 → tabInv t2)
    (h : Inv e) (hs : withActiveTab e f = some e2) : Inv e2 := by
  simp only [withActiveTab] at hs
  split at hs
  · cases hs
  · rename_i t hg
    split at hs
    · cases hs
    · rename_i t2 hft
      cases hs
      exact inv_set_tab h (hf t t2 (tabInv_of_mem_get? h hg) hft) rfl rfl

theorem inv_updateCTI {e e2 : Editor} (h : Inv e)
    (hs : updateCurrentTabInfo e = some e2) : Inv e2 := by
  simp only [updateCurrentTabInfo] at hs
  split at hs
  · cases hs
  · cases hs
    exact inv_of_fields h rfl rfl

theorem inv_deleteLine {e e2 : Editor} (h : Inv e)
    (hs : deleteLine e = some e2) : Inv e2 := by
  simp only [deleteLine] at hs
  split at hs
  · cases hs
  · rename_i t0 hg
    have ht0 := tabInv_of_mem_get? h hg
    have hsv := tabInv_saveState ht0
    split at hs
    · split at hs
      · cases hs
      · split at hs
        · cases hs
        · cases hs
          refine inv_set_tab h ?_ rfl rfl
          refine tabInv_content_stacks hsv ?_ rfl rfl
          split
          · simp
          · rename_i hne
            intro hnil
            apply hne
            rw [List.isEmpty_eq_true]
            exact hnil
    · cases hs
      exact inv_of_fields h rfl rfl

theorem inv_yankLine {e e2 : Editor} (h : Inv e)
    (hs : yankLine e = some e2) : Inv e2 := by
  simp only [yankLine] at hs
  split at hs
  · cases hs
  · rename_i t0 hg
    have hsv := tabInv_saveState (tabInv_of_mem_get? h hg)
    split at hs
    · cases hs
      exact inv_set_tab h hsv rfl rfl
    · split at hs
      · cases hs
      · cases hs
        exact inv_set_tab h hsv rfl rfl

theorem inv_pasteAfter {e e2 : Editor} (h : Inv e)
    (hs : pasteAfter e = some e2) : Inv e2 := by
  simp only [pasteAfter] at hs
  split at hs
  · cases hs
  · rename_i emid hmid
    have hinv2 : Inv emid := by
      split at hmid
      · cases hmid
        exact h
      · split at hmid
        · cases hmid
        · rename_i t0 hg
          have hsv := tabInv_saveState (tabInv_of_mem_get? h hg)
          split at hmid
          · cases hmid
          · split at hmid
            · cases hmid
            · split at hmid
              · cases hmid
              · cases hmid
                refine inv_set_tab h ?_ rfl rfl
                refine tabInv_content_stacks hsv ?_ rfl rfl
                simp
    exact inv_withActiveTab
      (fun t t2 ht hft => by cases hft; exact tabInv_ensureCursorInBounds ht)
      hinv2 hs

theorem inv_pasteClipboard {e e2 : Editor} (h : Inv e)
    (hs : pasteClipboard e = some e2) : Inv e2 := by
  simp only [pasteClipboard] at hs
  split at hs
  · cases hs
    exact inv_of_fields h rfl rfl
  · split at hs
    · cases hs
    · rename_i t0 hg
      have hsv := tabInv_saveState (tabInv_of_mem_get? h hg)
      split at hs
      · cases hs
      · split at hs
        · split at hs
          · cases hs
            refine inv_set_tab h ?_ rfl rfl
            exact tabInv_content_stacks hsv (ne_nil_of_set hsv.1) rfl rfl
          · cases hs
            refine inv_set_tab h ?_ rfl rfl
            refine tabInv_content_stacks hsv ?_ rfl rfl
            intro hnil
            have := congrArg List.length hnil
            simp [List.length_append] at this
        · cases hs

theorem inv_copySelection {e e2 : Editor} (h : Inv e)
    (hs : copySelection e = some e2) : Inv e2 := by
  simp only [copySelection] at hs
  split at hs
  · cases hs
  · split at hs
    · cases hs
    · split at hs
      · cases hs
        exact inv_of_fields h rfl rfl
      · cases hs
        exact inv_of_fields h rfl rfl

theorem inv_deleteSelection {e e2 : Editor} (h : Inv e)
    (hs : deleteSelection e = some e2) : Inv e2 := by
  simp only [deleteSelection] at hs
  split at hs
  · cases hs
  · rename_i t0 hg
    have hsv := tabInv_saveState (tabInv_of_mem_get? h hg)
    split at hs
    · split at hs
      · split at hs
        · cases hs
        · split at hs
          · cases hs
            refine inv_set_tab h ?_ rfl rfl
            exact tabInv_content_stacks hsv (ne_nil_of_set hsv.1) rfl rfl
          · cases hs
      · split at hs
        · cases hs
        · split at hs
          · split at hs
            · cases hs
              refine inv_set_tab h ?_ rfl rfl
              refine tabInv_content_stacks hsv ?_ rfl rfl
              simp
            · cases hs
          · cases hs
    · split at hs
      · split at hs
        · cases hs
        · split at hs
          · cases hs
            refine inv_set_tab h ?_ rfl rfl
            exact tabInv_content_stacks hsv (ne_nil_of_set hsv.1) rfl rfl
          · cases hs
      · split at hs
        · cases hs
        · split at hs
          · split at hs
            · cases hs
              refine inv_set_tab h ?_ rfl rfl
              refine tabInv_content_stacks hsv ?_ rfl rfl
              simp
            · cases hs
          · cases hs

theorem inv_switchToTab {n : Nat} {e e2 : Editor} (h : Inv e)
    (hs : switchToTab n e = some e2) : Inv e2 := by
  simp only [switchToTab] at hs
  split at hs
  · rename_i hlt
    refine inv_updateCTI ?_ hs
    exact ⟨h.1, hlt, h.2.2⟩
  · cases hs
    exact inv_of_fields h rfl rfl

theorem inv_nextTab {e e2 : Editor} (h : Inv e)
    (hs : nextTab e = some e2) : Inv e2 := by
  simp only [nextTab] at hs
  split at hs
  · cases hs
    exact inv_of_fields h rfl rfl
  · refine inv_updateCTI ?_ hs
    exact ⟨h.1, Nat.mod_lt _ (List.length_pos.mpr h.1), h.2.2⟩

theorem inv_previousTab {e e2 : Editor} (h : Inv e)
    (hs : previousTab e = some e2) : Inv e2 := by
  simp only [previousTab] at hs
  split at hs
  · cases hs
    exact inv_of_fields h rfl rfl
  · refine inv_updateCTI ?_ hs
    exact ⟨h.1, Nat.mod_lt _ (List.length_pos.mpr h.1), h.2.2⟩

theorem inv_newTab {e : Editor} (h : Inv e) : Inv (newTab e) := by
  obtain ⟨h1, h2, h3⟩ := h
  have happ : Inv { e with tabs := e.tabs ++ [Tab.new], active_tab := e.tabs.length } := by
    refine ⟨by simp, by simp, ?_⟩
    intro t hmem
    rcases List.mem_append.mp hmem with hh | hh
    · exact h3 _ hh
    · rw [List.mem_singleton.mp hh]
      exact tabInv_new
  unfold newTab
  split
  · rename_i t heq
    split
    · exact ⟨h1, by rw [heq]; simp, h3⟩
    · exact happ
  · exact happ

theorem inv_closeTab {e e2 : Editor} (h : Inv e)
    (hs : closeTab e = some e2) : Inv e2 := by
  obtain ⟨h1, h2, h3⟩ := h
  have hmem : ∀ t ∈ e.tabs.eraseIdx e.active_tab, tabInv t :=
    fun t ht => h3 _ (List.eraseIdx_subset _ _ ht)
  simp only [closeTab] at hs
  split at hs
  · rename_i hgt
    have hlen : (e.tabs.eraseIdx e.active_tab).length = e.tabs.length - 1 := by
      rw [List.length_eraseIdx]
      simp [h2]
    have hne : e.tabs.eraseIdx e.active_tab ≠ [] := by
      intro hnil
      rw [hnil] at hlen
      simp at hlen
      omega
    split at hs
    · refine inv_updateCTI ?_ hs
      refine ⟨hne, ?_, hmem⟩
      show (e.tabs.eraseIdx e.active_tab).length - 1 < (e.tabs.eraseIdx e.active_tab).length
      omega
    · rename_i hlt2
      refine inv_updateCTI ?_ hs
      exact ⟨hne, Nat.lt_of_not_le hlt2, hmem⟩
  · cases hs
    exact ⟨h1, h2, h3⟩

theorem inv_performSearch {e e2 : Editor} (h : Inv e)
    (hs : performSearch e = some e2) : Inv e2 := by
  simp only [performSearch] at hs
  split at hs
  · cases hs
  · rename_i t hg
    have ht := tabInv_of_mem_get? h hg
    split at hs
    · cases hs
      exact inv_of_fields h rfl rfl
    · cases hs
      refine inv_set_tab h ?_ rfl rfl
      exact tabInv_content_stacks ht ht.1 rfl rfl

theorem inv_nextSearchResult {e e2 : Editor} (h : Inv e)
    (hs : nextSearchResult e = some e2) : Inv e2 := by
  simp only [nextSearchResult] at hs
  split at hs
  · cases hs
    exact inv_of_fields h rfl rfl
  · split at hs
    · cases hs
    · split at hs
      · cases hs
      · rename_i t hg
        cases hs
        have ht := tabInv_of_mem_get? h hg
        refine inv_set_tab h ?_ rfl rfl
        exact tabInv_content_stacks ht ht.1 rfl rfl

theorem inv_previousSearchResult {e e2 : Editor} (h : Inv e)
    (hs : previousSearchResult e = some e2) : Inv e2 := by
  simp only [previousSearchResult] at hs
  split at hs
  · cases hs
    exact inv_of_fields h rfl rfl
  · split at hs
    · cases hs
    · split at hs
      · cases hs
      · rename_i t hg
        cases hs
        have ht := tabInv_of_mem_get? h hg
        refine inv_set_tab h ?_ rfl rfl
        exact tabInv_content_stacks ht ht.1 rfl rfl

theorem inv_insertCharE {c : Char} {e e2 : Editor} (h : Inv e)
    (hs : insertChar c e = some e2) : Inv e2 :=
  inv_withActiveTab (fun _ _ ht hf => tabInv_insertChar ht hf) h hs

theorem inv_insertNewlineE {e e2 : Editor} (h : Inv e)
    (hs : insertNewline e = some e2) : Inv e2 :=
  inv_withActiveTab (fun _ _ ht hf => tabInv_insertNewline ht hf) h hs

theorem inv_backspaceE {e e2 : Editor} (h : Inv e)
    (hs : backspace e = some e2) : Inv e2 :=
  inv_withActiveTab (fun _ _ ht hf => tabInv_backspace ht hf) h hs

theorem inv_deleteCharE {e e2 : Editor} (h : Inv e)
    (hs : deleteChar e = some e2) : Inv e2 :=
  inv_withActiveTab (fun _ _ ht hf => tabInv_deleteChar ht hf) h hs

theorem inv_insertLineBelowE {e e2 : Editor} (h : Inv e)
    (hs : insertLineBelow e = some e2) : Inv e2 :=
  inv_withActiveTab (fun _ _ ht hf => by cases hf; exact tabInv_insertLineBelow ht) h hs

theorem inv_insertLineAboveE {e e2 : Editor} (h : Inv e)
    (hs : insertLineAbove e = some e2) : Inv e2 :=
  inv_withActiveTab (fun _ _ ht hf => by cases hf; exact tabInv_insertLineAbove ht) h hs

theorem inv_moveUpE {e e2 : Editor} (h : Inv e)
    (hs : moveCursorUp e = some e2) : Inv e2 :=
  inv_withActiveTab (fun _ _ ht hf => by cases hf; exact tabInv_moveUp ht) h hs

theorem inv_moveDownE {e e2 : Editor} (h : Inv e)
    (hs : moveCursorDown e = some e2) : Inv e2 :=
  inv_withActiveTab (fun _ _ ht hf => tabInv_moveDown ht hf) h hs

theorem inv_moveLeftE {e e2 : Editor} (h : Inv e)
    (hs : moveCursorLeft e = some e2) : Inv e2 :=
  inv_withActiveTab (fun _ _ ht hf => tabInv_moveLeft ht hf) h hs

theorem inv_moveRightE {e e2 : Editor} (h : Inv e)
    (hs : moveCursorRight e = some e2) : Inv e2 :=
  inv_withActiveTab (fun _ _ ht hf => tabInv_moveRight ht hf) h hs

theorem inv_moveHomeE {e e2 : Editor} (h : Inv e)
    (hs : moveCursorStartOfLine e = some e2) : Inv e2 :=
  inv_withActiveTab (fun _ _ ht hf => by cases hf; exact tabInv_moveHome ht) h hs

theorem inv_moveEndE {e e2 : Editor} (h : Inv e)
    (hs : moveCursorEndOfLine e = some e2) : Inv e2 :=
  inv_withActiveTab (fun _ _ ht hf => tabInv_moveEnd ht hf) h hs

theorem inv_pageUpE {e e2 : Editor} (h : Inv e)
    (hs : pageUp e = some e2) : Inv e2 :=
  inv_withActiveTab (fun _ _ ht hf => by cases hf; exact tabInv_pageUp ht) h hs

theorem inv_pageDownE {e e2 : Editor} (h : Inv e)
    (hs : pageDown e = some e2) : Inv e2 :=
  inv_withActiveTab (fun _ _ ht hf => tabInv_pageDown ht hf) h hs

theorem inv_undoE {e e2 : Editor} (h : Inv e)
    (hs : undoE e = some e2) : Inv e2 :=
  inv_withActiveTab (fun _ _ ht hf => by cases hf; exact tabInv_undo ht) h hs

theorem inv_redoE {e e2 : Editor} (h : Inv e)
    (hs : redoE e = some e2) : Inv e2 :=
  inv_withActiveTab (fun _ _ ht hf => by cases hf; exact tabInv_redo ht) h hs

theorem inv_ensureCIBE {e e2 : Editor} (h : Inv e)
    (hs : ensureCursorInBounds e = some e2) : Inv e2 :=
  inv_withActiveTab
    (fun _ _ ht hf => by cases hf; exact tabInv_ensureCursorInBounds ht) h hs

theorem inv_ensureCVE {e e2 : Editor} (h : Inv e)
    (hs : ensureCursorVisible e = some e2) : Inv e2 :=
  inv_withActiveTab
    (fun _ _ ht hf => by cases hf; exact tabInv_ensureCursorVisible ht) h hs

theorem inv_toggleMinimap {e e2 : Editor} (h : Inv e)
    (hs : toggleMinimap e = some e2) : Inv e2 := by
  simp only [toggleMinimap] at hs
  split at hs
  · split at hs
    · cases hs
    · split at hs
      · cases hs
        exact inv_of_fields h rfl rfl
      · cases hs
        exact inv_of_fields h rfl rfl
  · cases hs
    exact inv_of_fields h rfl rfl

theorem inv_bindUpdate {x : Option Editor} {e2 : Editor}
    (hx : ∀ e3, x = some e3 → Inv e3)
    (hb : x.bind updateCurrentTabInfo = some e2) : Inv e2 := by
  rcases Option.bind_eq_some.mp hb with ⟨e3, hx3, hu⟩
  exact inv_updateCTI (hx _ hx3) hu

theorem inv_executeAction {e e2 : Editor} {s : String} (h : Inv e)
    (hs : executeAction e s = some e2) : Inv e2 := by
  unfold executeAction at hs
  repeat split at hs
  all_goals first
    | (cases hs; exact inv_of_fields h rfl rfl)
    | (cases hs
       unfold toggleSidebar
       split
       · exact inv_of_fields h rfl rfl
       · exact inv_of_fields h rfl rfl)
    | (refine inv_moveRightE ?_ hs
       exact inv_of_fields h rfl rfl)
    | (rcases Option.map_eq_some'.mp hs with ⟨e3, h3, hfa⟩
       subst hfa
       first
         | (refine inv_of_fields (inv_insertLineBelowE h h3) rfl rfl)
         | (refine inv_of_fields (inv_insertLineAboveE h h3) rfl rfl))
    | exact inv_deleteLine h hs
    | exact inv_yankLine h hs
    | exact inv_pasteAfter h hs
    | exact inv_nextSearchResult h hs
    | exact inv_previousSearchResult h hs
    | exact inv_copySelection h hs
    | exact inv_pasteClipboard h hs
    | exact inv_undoE h hs
    | exact inv_redoE h hs
    | exact inv_bindUpdate (fun e3 h3 => inv_nextTab h h3) hs
    | exact inv_bindUpdate (fun e3 h3 => inv_previousTab h h3) hs
    | exact inv_bindUpdate (fun e3 h3 => inv_switchToTab h h3) hs
    | exact inv_bindUpdate (fun e3 h3 => inv_closeTab h h3) hs
    | exact inv_updateCTI (inv_newTab h) hs
    | exact inv_toggleMinimap h hs

theorem inv_handleNormalSingle {e e2 : Editor} {ks : String} {k : Key} (h : Inv e)
    (hs : handleNormalSingle e ks k = some e2) : Inv e2 := by
  unfold handleNormalSingle at hs
  split at hs
  · exact inv_executeAction h hs
  · split at hs
    · cases hs
      exact inv_of_fields h rfl rfl
    · split at hs
      all_goals first
        | (cases hs; exact inv_of_fields h rfl rfl)
        | exact inv_moveLeftE h hs
        | exact inv_moveDownE h hs
        | exact inv_moveUpE h hs
        | exact inv_moveRightE h hs
        | exact inv_moveHomeE h hs
        | exact inv_moveEndE h hs
        | exact inv_pageUpE h hs
        | exact inv_pageDownE h hs
        | exact inv_bindUpdate (fun e3 h3 => inv_nextTab h h3) hs
        | exact inv_bindUpdate (fun e3 h3 => inv_previousTab h h3) hs

theorem inv_handleNormalMode {e e2 : Editor} {k : Key} (h : Inv e)
    (hs : handleNormalMode e k = some e2) : Inv e2 := by
  simp only [handleNormalMode] at hs
  split at hs
  · split at hs
    · refine inv_executeAction ?_ hs
      exact inv_of_fields h rfl rfl
    · refine inv_handleNormalSingle ?_ hs
      exact inv_of_fields h rfl rfl
  · exact inv_handleNormalSingle h hs

theorem inv_stepOp {op : Op} {e e2 : Editor} (h : Inv e)
    (hs : stepOp op e = some e2) : Inv e2 := by
  cases op <;> simp only [stepOp] at hs
  all_goals first
    | exact inv_insertCharE h hs
    | exact inv_insertNewlineE h hs
    | exact inv_backspaceE h hs
    | exact inv_deleteCharE h hs
    | exact inv_deleteLine h hs
    | exact inv_insertLineBelowE h hs
    | exact inv_insertLineAboveE h hs
    | exact inv_yankLine h hs
    | exact inv_pasteAfter h hs
    | exact inv_pasteClipboard h hs
    | exact inv_copySelection h hs
    | exact inv_deleteSelection h hs
    | exact inv_moveLeftE h hs
    | exact inv_moveRightE h hs
    | exact inv_moveUpE h hs
    | exact inv_moveDownE h hs
    | exact inv_moveHomeE h hs
    | exact inv_moveEndE h hs
    | exact inv_pageUpE h hs
    | exact inv_pageDownE h hs
    | exact inv_undoE h hs
    | exact inv_redoE h hs
    | exact inv_ensureCIBE h hs
    | exact inv_ensureCVE h hs
    | exact inv_performSearch h hs
    | exact inv_nextSearchResult h hs
    | exact inv_previousSearchResult h hs
    | exact inv_switchToTab h hs
    | exact inv_nextTab h hs
    | exact inv_previousTab h hs
    | exact inv_closeTab h hs
    | exact inv_toggleMinimap h hs
    | exact inv_executeAction h hs
    | exact inv_handleNormalMode h hs
    | (cases hs; exact inv_newTab h)
    | (cases hs; exact inv_of_fields h rfl rfl)
    | (cases hs
       unfold toggleSidebar
       split
       · exact inv_of_fields h rfl rfl
       · exact inv_of_fields h rfl rfl)

theorem inv_init : Inv Editor.new := by
  refine ⟨by simp [Editor.new], by simp [Editor.new], ?_⟩
  intro t hmem
  simp only [Editor.new, List.mem_singleton] at hmem
  rw [hmem]
  exact tabInv_new

/-- Every reachable editor state satisfies the inductive invariant. -/
theorem reachable_inv {e : Editor} (h : Reachable e) : Inv e := by
  induction h with
  | init => exact inv_init
  | next op _ hstep ih => exact inv_stepOp ih hstep

/-! ## Supporting facts about save_state -/

theorem saveState_content (t : Tab) : (saveStateTab t).content = t.content := rfl

theorem saveState_cursor (t : Tab) :
    (saveStateTab t).cursor_position = t.cursor_position := rfl

theorem saveState_redo (t : Tab) : (saveStateTab t).redo_stack = [] := rfl

theorem saveState_undo_head (t : Tab) :
    (saveStateTab t).undo_stack.head? = some (snapshotOf t) := by
  simp only [saveStateTab]
  split
  · rename_i hlong
    have hne : t.undo_stack ≠ [] := by
      intro hnil
      rw [hnil] at hlong
      simp at hlong
    rw [List.dropLast_cons_of_ne_nil hne]
    rfl
  · rfl

/-! ## Claim theorems -/

/-- Claim C2 (confirmed). For every tab state with a non-empty undo stack,
undo() immediately followed by redo() restores the buffer state — content,
cursor position, vertical and horizontal scroll offsets — that held before
the undo; undo() on an empty undo stack is a no-op. -/
theorem undo_redo_round_trip (t : Tab) :
    (t.undo_stack ≠ [] →
      (redoTab (undoTab t)).content = t.content ∧
      (redoTab (undoTab t)).cursor_position = t.cursor_position ∧
      (redoTab (undoTab t)).scroll_offset = t.scroll_offset ∧
      (redoTab (undoTab t)).horizontal_scroll = t.horizontal_scroll) ∧
    (t.undo_stack = [] → undoTab t = t) := by
  obtain ⟨c, cp, so, hsc, cf, sl, us, rs⟩ := t
  cases us with
  | nil => exact ⟨fun hne => absurd rfl hne, fun _ => rfl⟩
  | cons op rest => exact ⟨fun _ => ⟨rfl, rfl, rfl, rfl⟩, fun he => nomatch he⟩

def c2Tab : Tab :=
  { Tab.new with
      content := [['a', 'b']]
      cursor_position := (2, 0)
      undo_stack := [{ content := [['a']], cursor_position := (1, 0),
                       scroll_offset := 0, horizontal_scroll := 0 }] }

/-- Witness for C2 at a concrete tab with one undo entry, plus the empty
no-op at the fresh tab. -/
theorem undo_redo_round_trip_witness :
    ((redoTab (undoTab c2Tab)).content = c2Tab.content ∧
      (redoTab (undoTab c2Tab)).cursor_position = c2Tab.cursor_position ∧
      (redoTab (undoTab c2Tab)).scroll_offset = c2Tab.scroll_offset ∧
      (redoTab (undoTab c2Tab)).horizontal_scroll = c2Tab.horizontal_scroll) ∧
    undoTab Tab.new = Tab.new :=
  ⟨(undo_redo_round_trip c2Tab).1 (by decide),
   (undo_redo_round_trip Tab.new).2 rfl⟩

/-- Claim C6 (confirmed). save_state() pushes a snapshot of the tab's
current (pre-mutation) buffer state as the most recent undo entry, clears
the redo stack, leaves the buffer itself untouched, and keeps the undo
stack at ≤ 100 entries, evicting the oldest entry when the cap would be
exceeded. -/
theorem save_state_spec (t : Tab) :
    (saveStateTab t).content = t.content ∧
    (saveStateTab t).cursor_position = t.cursor_position ∧
    (saveStateTab t).undo_stack.head? = some (snapshotOf t) ∧
    (saveStateTab t).redo_stack = [] ∧
    (t.undo_stack.length ≤ 100 → (saveStateTab t).undo_stack.length ≤ 100) ∧
    (t.undo_stack.length < 100 →
      (saveStateTab t).undo_stack = snapshotOf t :: t.undo_stack) ∧
    (t.undo_stack.length = 100 →
      (saveStateTab t).undo_stack = (snapshotOf t :: t.undo_stack).dropLast ∧
      (saveStateTab t).undo_stack.length = 100) := by
  refine ⟨rfl, rfl, saveState_undo_head t, rfl, ?_, ?_, ?_⟩
  · intro hle
    simp only [saveStateTab]
    split
    · rename_i hgt
      simp only [List.length_dropLast, List.length_cons]
      omega
    · rename_i hng
      simp only [List.length_cons] at hng ⊢
      omega
  · intro hlt
    simp only [saveStateTab]
    split
    · rename_i hgt
      simp only [List.length_cons] at hgt
      omega
    · rfl
  · intro heq
    simp only [saveStateTab]
    constructor
    · split
      · rfl
      · rename_i hng
        simp only [List.length_cons] at hng
        omega
    · split
      · simp [List.length_dropLast, heq]
      · rename_i hng
        simp only [List.length_cons] at hng
        omega

def c6Tab : Tab :=
  { Tab.new with
      content := [['x']]
      undo_stack := List.replicate 100 (snapshotOf Tab.new) }

/-- Witness for C6 at a concrete tab whose undo stack already holds
exactly 100 entries: the push evicts the oldest entry and keeps the cap. -/
theorem save_state_spec_witness :
    c6Tab.undo_stack.length = 100 ∧
    (saveStateTab c6Tab).undo_stack.head? = some (snapshotOf c6Tab) ∧
    (saveStateTab c6Tab).redo_stack = [] ∧
    (saveStateTab c6Tab).undo_stack = (snapshotOf c6Tab :: c6Tab.undo_stack).dropLast ∧
    (saveStateTab c6Tab).undo_stack.length = 100 := by
  have h := save_state_spec c6Tab
  have h100 : c6Tab.undo_stack.length = 100 := by
    simp [c6Tab]
  exact ⟨h100, h.2.2.1, h.2.2.2.1, (h.2.2.2.2.2.2 h100).1, (h.2.2.2.2.2.2 h100).2⟩

/-- Claim C10 (confirmed). backspace() with the cursor at (0, 0) leaves
the buffer content and cursor unchanged, but still pushes one snapshot of
the current state onto the undo stack and clears the redo stack. -/
theorem backspace_origin_saves_state (t : Tab)
    (h : t.cursor_position = (0, 0)) :
    backspaceTab t = some (saveStateTab t) ∧
    (saveStateTab t).content = t.content ∧
    (saveStateTab t).cursor_position = t.cursor_position ∧
    (saveStateTab t).undo_stack.head? = some (snapshotOf t) ∧
    (saveStateTab t).redo_stack = [] := by
  refine ⟨?_, rfl, rfl, saveState_undo_head t, rfl⟩
  simp only [backspaceTab, saveState_cursor, h]
  rfl

/-- Witness for C10 at the fresh tab (cursor at the origin). -/
theorem backspace_origin_saves_state_witness :
    backspaceTab Tab.new = some (saveStateTab Tab.new) ∧
    (saveStateTab Tab.new).content = Tab.new.content ∧
    (saveStateTab Tab.new).cursor_position = Tab.new.cursor_position ∧
    (saveStateTab Tab.new).undo_stack.head? = some (snapshotOf Tab.new) ∧
    (saveStateTab Tab.new).redo_stack = [] :=
  backspace_origin_saves_state Tab.new rfl

def c4Tab : Tab := { Tab.new with content := [['a']], cursor_position := (0, 5) }

/-- Counterexample to claim C4 as stated: with the cursor's line index out
of range (line 5 of a one-line buffer), insert_char is NOT a silent no-op.
The source indexes `tab.content[tab.cursor_position.1]`, which panics and
aborts the process (no successor state, `none` in the model) instead of
leaving the buffer unchanged. -/
theorem insert_char_out_of_range_cex :
    insertCharTab 'x' c4Tab = none ∧ 5 ≥ c4Tab.content.length := by decide

/-- Claim C4 as amended. When the cursor's line index is in range and the
column is at most that line's length, insert_char inserts the character at
the cursor (after the save_state push) and advances the column by 1; when
the line index is out of range it panics (the indexing aborts the editor)
rather than silently no-oping. -/
theorem insert_char_amended (t : Tab) (c : Char) :
    (∀ line, t.content.get? t.cursor_position.2 = some line →
      t.cursor_position.1 ≤ line.length →
      insertCharTab c t = some (adjustHorizontalScroll
        { saveStateTab t with
            content := t.content.set t.cursor_position.2
              (line.take t.cursor_position.1 ++ c :: line.drop t.cursor_position.1)
            cursor_position := (t.cursor_position.1 + 1, t.cursor_position.2) })) ∧
    (t.content.length ≤ t.cursor_position.2 → insertCharTab c t = none) := by
  constructor
  · intro line hline hcol
    simp only [insertCharTab, saveState_content, saveState_cursor, hline,
      if_pos hcol]
  · intro hout
    simp only [insertCharTab, saveState_content, saveState_cursor,
      List.get?_eq_none.mpr hout]

def c4GoodTab : Tab := { Tab.new with content := [['a', 'b']], cursor_position := (1, 0) }

/-- Witness for C4 as amended: an in-range insertion at column 1 of "ab",
and the out-of-range panic at `c4Tab`. -/
theorem insert_char_amended_witness :
    insertCharTab 'x' c4GoodTab = some (adjustHorizontalScroll
      { saveStateTab c4GoodTab with
          content := c4GoodTab.content.set 0 [('a' : Char), 'x', 'b']
          cursor_position := (2, 0) }) ∧
    insertCharTab 'x' c4Tab = none := by
  have h1 := (insert_char_amended c4GoodTab 'x').1 ['a', 'b'] rfl (by decide)
  have h2 := (insert_char_amended c4Tab 'x').2 (by decide)
  exact ⟨h1, h2⟩

/-- Claim C9 (confirmed). close_tab() on a single-tab editor is a no-op;
with two or more tabs (and a valid active index) it removes the active
tab, leaves one fewer tab, and the active index stays in range. -/
theorem close_tab_spec (e : Editor) :
    (e.tabs.length = 1 → closeTab e = some e) ∧
    (2 ≤ e.tabs.length → e.active_tab < e.tabs.length →
      ∃ e2, closeTab e = some e2 ∧
        e2.tabs = e.tabs.eraseIdx e.active_tab ∧
        e2.tabs.length = e.tabs.length - 1 ∧
        e2.active_tab < e2.tabs.length) := by
  constructor
  · intro h1
    unfold closeTab
    rw [if_neg (by omega)]
  · intro h2 hlt
    have hlen : (e.tabs.eraseIdx e.active_tab).length = e.tabs.length - 1 := by
      rw [List.length_eraseIdx]
      simp [hlt]
    have hactlt : (if e.active_tab ≥ (e.tabs.eraseIdx e.active_tab).length then
        (e.tabs.eraseIdx e.active_tab).length - 1 else e.active_tab) <
        (e.tabs.eraseIdx e.active_tab).length := by
      split <;> omega
    obtain ⟨t2, ht2⟩ : ∃ t2, (e.tabs.eraseIdx e.active_tab).get?
        (if e.active_tab ≥ (e.tabs.eraseIdx e.active_tab).length then
          (e.tabs.eraseIdx e.active_tab).length - 1 else e.active_tab) = some t2 := by
      rcases List.get?_eq_get hactlt with hg
      exact ⟨_, hg⟩
    refine ⟨{ e with
                tabs := e.tabs.eraseIdx e.active_tab
                active_tab := if e.active_tab ≥ (e.tabs.eraseIdx e.active_tab).length
                  then (e.tabs.eraseIdx e.active_tab).length - 1 else e.active_tab
                content := t2.content
                cursor_position := t2.cursor_position
                scroll_offset := t2.scroll_offset
                horizontal_scroll := t2.horizontal_scroll
                current_file := t2.current_file
                synLabel := t2.synLabel }, ?_, rfl, hlen, hactlt⟩
    simp only [closeTab, updateCurrentTabInfo]
    rw [if_pos (by omega : e.tabs.length > 1), if_pos hlt]
    simp only [ht2]

def c9Editor : Editor :=
  { Editor.new with
      tabs := [Tab.new, { Tab.new with content := [['z']] }]
      active_tab := 1 }

/-- Witness for C9: the two-tab editor loses its active tab and keeps a
valid index; the single-tab editor is untouched. -/
theorem close_tab_spec_witness :
    (∃ e2, closeTab c9Editor = some e2 ∧
      e2.tabs = c9Editor.tabs.eraseIdx c9Editor.active_tab ∧
      e2.tabs.length = c9Editor.tabs.length - 1 ∧
      e2.active_tab < e2.tabs.length) ∧
    closeTab Editor.new = some Editor.new :=
  ⟨(close_tab_spec c9Editor).2 (by decide) (by decide),
   (close_tab_spec Editor.new).1 rfl⟩

def c3Editor : Editor :=
  { Editor.new with
      clipboard_context := { contents := [], fails := true }
      visual_start := (0, 0)
      tabs := [{ Tab.new with content := [['a'], ['b']] }] }

/-- Claim C3 (code_bug). delete_line and yank_line call
`set_contents(line).unwrap()`: when the clipboard collaborator fails, the
unwrap panics and aborts the editor (`none`), contrary to the claimed
non-fatal degradation — which IS how copy_selection handles the very same
failure (a debug message, buffer untouched), and how the same editor
state behaves when the clipboard works. -/
theorem clipboard_unwrap_panics :
    deleteLine c3Editor = none ∧
    yankLine c3Editor = none ∧
    (copySelection c3Editor).isSome ∧
    ((copySelection c3Editor).getD Editor.new).debug_messages =
      ["Failed to copy to clipboard"] ∧
    ((copySelection c3Editor).getD Editor.new).tabs = c3Editor.tabs ∧
    (deleteLine { c3Editor with
        clipboard_context := { contents := [], fails := false } }).isSome := by
  decide

/-- Counterexample to claim C8 as stated: the initial editor state is
reachable, its tab collection is the singleton scratch tab, and its
active index is 0, so `1 ≤ active_index` fails (the source is 0-based). -/
theorem tab_index_one_based_cex :
    Reachable Editor.new ∧ Editor.new.tabs ≠ [] ∧
    Editor.new.tabs.length = 1 ∧ ¬ 1 ≤ Editor.new.active_tab :=
  ⟨Reachable.init, by decide, by decide, by decide⟩

/-- Claim C8 as amended. For every reachable editor state the tab
collection is non-empty and the active index satisfies
`0 ≤ active_index < length` (the index is 0-based, not 1-based). -/
theorem tab_collection_amended (e : Editor) (h : Reachable e) :
    e.tabs ≠ [] ∧ e.active_tab < e.tabs.length :=
  ⟨(reachable_inv h).1, (reachable_inv h).2.1⟩

/-- Witness for C8 as amended at the initial (reachable) editor state. -/
theorem tab_collection_amended_witness :
    Editor.new.tabs ≠ [] ∧ Editor.new.active_tab < Editor.new.tabs.length :=
  tab_collection_amended Editor.new Reachable.init

/-! ## Selection extraction (C5) -/

theorem take_one_head? (l : List α) : l.take 1 = l.head?.toList := by
  cases l <;> simp

theorem drop_head? (l : List α) (n : Nat) : (l.drop n).head? = l.get? n := by
  simp [← List.head?_drop, List.get?_eq_getElem?]

theorem selectionSlice_same_line {content : List (List Char)} {L : Nat}
    {line : List Char} (h : content.get? L = some line) {s en : Nat × Nat}
    (hs2 : s.2 = L) (hen2 : en.2 = L) :
    selectionSlice s en content = [(L, line)] := by
  unfold selectionSlice
  rw [hs2, hen2, Nat.sub_self, Nat.zero_add, take_one_head?, drop_head?,
    List.get?_enum, h]
  rfl

theorem tupleLe_col {p q : Nat × Nat} (h : tupleLe p q) : p.1 ≤ q.1 := by
  rcases h with h | ⟨h, _⟩
  · omega
  · omega

theorem not_tupleLe_col {p q : Nat × Nat} (h : ¬ tupleLe p q) : q.1 ≤ p.1 := by
  unfold tupleLe at h
  push_neg at h
  omega

def c5Tab : Tab :=
  { Tab.new with content := [['a', 'b', 'c', 'd']], cursor_position := (1, 0) }

def c5Editor : Editor :=
  { Editor.new with visual_start := (0, 0), tabs := [c5Tab] }

/-- Counterexample to claim C5 as stated: the keyboard (visual-mode)
selection from (line 0, col 0) to (line 0, col 1) of "abcd" should, per
the claim, extract the end-inclusive slice "ab" (end.col − start.col + 1 =
2 characters); the code extracts the whole suffix "abcd", because the
single-line case falls into the `i == start.1` branch, which ignores
end.col. -/
theorem copy_selection_endcol_cex :
    copySelectionText c5Editor c5Tab = some ['a', 'b', 'c', 'd'] ∧
    ((copySelection c5Editor).getD Editor.new).clipboard_context.contents =
      ['a', 'b', 'c', 'd'] ∧
    (['a', 'b', 'c', 'd'] : List Char) ≠ ['a', 'b'] := by decide

/-- Claim C5 as amended. For a keyboard selection whose normalized start
and end lie on the same line (with end.col within the line), the extracted
text is the suffix of that line from the normalized start column to the
END OF THE LINE: the end column is ignored by the extraction. -/
theorem copy_selection_single_line_amended (e : Editor) (t : Tab)
    (line : List Char)
    (hsame : e.visual_start.2 = t.cursor_position.2)
    (hline : t.content.get? t.cursor_position.2 = some line)
    (hend : max e.visual_start.1 t.cursor_position.1 ≤ line.length) :
    copySelectionText e t =
      some (line.drop (min e.visual_start.1 t.cursor_position.1)) := by
  simp only [copySelectionText]
  by_cases hle : tupleLe e.visual_start t.cursor_position
  · simp only [if_pos hle]
    rw [hsame, if_neg (lt_irrefl _)]
    rw [selectionSlice_same_line hline hsame rfl]
    simp only [renderSelection]
    rw [if_pos hsame.symm]
    simp only [if_true, List.append_nil]
    rw [Nat.min_eq_left (tupleLe_col hle)]
  · simp only [if_neg hle]
    rw [hsame, if_neg (lt_irrefl _)]
    rw [selectionSlice_same_line hline rfl hsame]
    simp only [renderSelection, if_true]
    rw [if_pos hsame.symm]
    simp only [List.append_nil]
    rw [Nat.min_eq_right (not_tupleLe_col hle)]

/-- Witness for C5 as amended at the counterexample selection: the
extracted text is the suffix from column 0, the whole line. -/
theorem copy_selection_single_line_witness :
    copySelectionText c5Editor c5Tab =
      some ((['a', 'b', 'c', 'd'] : List Char).drop
        (min c5Editor.visual_start.1 c5Tab.cursor_position.1)) :=
  copy_selection_single_line_amended c5Editor c5Tab ['a', 'b', 'c', 'd']
    rfl rfl (by decide)

/-! ## Chord resolution (C7) -/

def c7Editor : Editor :=
  { Editor.new with tabs := [{ Tab.new with content := [['a', 'b'], ['c', 'd']] }] }

/-- Claim C7 (confirmed). In Normal mode with the default keybindings:
with no pending key, "d" is buffered as the pending key and fires no
action; with "d" pending, a second "d" resolves the compound binding "dd"
and fires delete_line, while an "x" fires no action and only clears the
pending key. The final conjunct shows the resolved "dd" really deleting
line 0 of a concrete two-line buffer. -/
theorem chord_resolution (e : Editor)
    (hmode : e.mode = Mode.Normal)
    (hkb : e.keybindings = defaultNormalMode) :
    (e.pending_key = none →
      handleNormalMode e (Key.Char 'd') = some { e with pending_key := some "d" }) ∧
    (e.pending_key = some "d" →
      handleNormalMode e (Key.Char 'd') = deleteLine { e with pending_key := none } ∧
      handleNormalMode e (Key.Char 'x') = some { e with pending_key := none }) ∧
    (handleNormalMode { c7Editor with pending_key := some "d" } (Key.Char 'd')).map
      (fun e2 => ((e2.tabs.get? 0).getD Tab.new).content) = some [['c', 'd']] := by
  refine ⟨?_, fun hp => ⟨?_, ?_⟩, by decide⟩
  · intro hp
    simp only [handleNormalMode, hp, handleNormalSingle, hkb]
    rw [show lookupAction defaultNormalMode (keyToString (Key.Char 'd')) = none
      from by decide]
    rw [if_pos (show (defaultNormalMode.any fun kv =>
      strStartsWith kv.1 (keyToString (Key.Char 'd'))) = true from by decide)]
    rfl
  · simp only [handleNormalMode, hp, hkb]
    rw [show lookupAction defaultNormalMode
      ("d" ++ keyToString (Key.Char 'd')) = some "delete_line" from by decide]
    rfl
  · simp only [handleNormalMode, hp, handleNormalSingle, hkb]
    rw [show lookupAction defaultNormalMode
      ("d" ++ keyToString (Key.Char 'x')) = none from by decide]
    rw [show lookupAction defaultNormalMode (keyToString (Key.Char 'x')) = none
      from by decide]
    rw [if_neg (show ¬ (defaultNormalMode.any fun kv =>
      strStartsWith kv.1 (keyToString (Key.Char 'x'))) = true from by decide)]

/-- Witness for C7 at the initial editor (Normal mode, default bindings,
no pending key) and at the same editor with "d" pending. -/
theorem chord_resolution_witness :
    (Editor.new.pending_key = none →
      handleNormalMode Editor.new (Key.Char 'd') =
        some { Editor.new with pending_key := some "d" }) ∧
    ({ Editor.new with pending_key := some "d" }.pending_key = some "d" →
      handleNormalMode { Editor.new with pending_key := some "d" } (Key.Char 'd') =
        deleteLine { { Editor.new with pending_key := some "d" } with
          pending_key := none } ∧
      handleNormalMode { Editor.new with pending_key := some "d" } (Key.Char 'x') =
        some { { Editor.new with pending_key := some "d" } with pending_key := none }) :=
  ⟨(chord_resolution Editor.new rfl rfl).1,
   (chord_resolution { Editor.new with pending_key := some "d" } rfl rfl).2.1⟩

/-! ## Reachable cursor-bound violations and the amended invariant (C1) -/

/-- One editing-core step, defaulting to the unchanged state (used only to
write down concrete reachable states; reachability itself is proved
step by step against `stepOp`). -/
def stepD (op : Op) (e : Editor) : Editor := (stepOp op e).getD e

theorem reachable_stepD {e : Editor} (op : Op) (h : Reachable e)
    (hok : (stepOp op e).isSome = true) : Reachable (stepD op e) := by
  cases hs : stepOp op e with
  | none => rw [hs] at hok; cases hok
  | some e2 =>
      have he : stepD op e = e2 := by unfold stepD; rw [hs]; rfl
      rw [he]
      exact Reachable.next op h hs

/-- Typing "a", pressing Enter, then Up, Right (to the end of "a"), and
Down: the column is preserved by vertical movement without clamping, so
the cursor lands at column 1 of the empty second line. -/
def c1ColEditor : Editor :=
  stepD Op.moveDown (stepD Op.moveRight (stepD Op.moveUp
    (stepD Op.insertNewline (stepD (Op.insertChar 'a') Editor.new))))

def c1ColTab : Tab := (c1ColEditor.tabs.get? c1ColEditor.active_tab).getD Tab.new

/-- Typing "a", Enter, "a" (buffer ["a","a"]), searching for "a" (two
stored results), deleting both lines with dd, then pressing n: the stale
second search result moves the cursor to line 1 of a one-line buffer. -/
def c1LineEditor : Editor :=
  stepD Op.nextSearchResult (stepD Op.deleteLine (stepD Op.deleteLine
    (stepD Op.performSearch (stepD (Op.searchChar 'a')
      (stepD (Op.insertChar 'a') (stepD Op.insertNewline
        (stepD (Op.insertChar 'a') Editor.new)))))))

def c1LineTab : Tab := (c1LineEditor.tabs.get? c1LineEditor.active_tab).getD Tab.new

/-- Counterexample to claim C1 as stated: two reachable editor states
violate the claimed cursor bounds. In the first, the active tab's cursor
column (1) exceeds the length of its line (the empty line); in the
second, the cursor's line index (1) is not below the number of lines (1).
The line-list non-emptiness clause holds in both. -/
theorem cursor_bounds_cex :
    Reachable c1ColEditor ∧
    (c1ColEditor.tabs.get? c1ColEditor.active_tab = some c1ColTab ∧
      1 ≤ c1ColTab.content.length ∧
      c1ColTab.cursor_position.2 < c1ColTab.content.length ∧
      c1ColTab.content.get? c1ColTab.cursor_position.2 = some [] ∧
      ¬ c1ColTab.cursor_position.1 ≤ List.length ([] : List Char)) ∧
    Reachable c1LineEditor ∧
    (c1LineEditor.tabs.get? c1LineEditor.active_tab = some c1LineTab ∧
      1 ≤ c1LineTab.content.length ∧
      ¬ c1LineTab.cursor_position.2 < c1LineTab.content.length) := by
  refine ⟨?_, by decide, ?_, by decide⟩
  · exact reachable_stepD _ (reachable_stepD _ (reachable_stepD _
      (reachable_stepD _ (reachable_stepD _ Reachable.init (by decide))
        (by decide)) (by decide)) (by decide)) (by decide)
  · exact reachable_stepD _ (reachable_stepD _ (reachable_stepD _
      (reachable_stepD _ (reachable_stepD _ (reachable_stepD _
        (reachable_stepD _ (reachable_stepD _ Reachable.init (by decide))
          (by decide)) (by decide)) (by decide)) (by decide)) (by decide))
      (by decide)) (by decide)

/-- Claim C1 as amended. For every reachable editor state the active
tab's line sequence is non-empty (the cursor-bound clauses do NOT hold of
every reachable state); the full claimed property — line index strictly
below the number of lines and column at most the current line's length —
is (re-)established by ensure_cursor_in_bounds on any tab. -/
theorem cursor_bounds_amended (e : Editor) (h : Reachable e) :
    (∃ t, e.tabs.get? e.active_tab = some t ∧ 1 ≤ t.content.length) ∧
    ∀ t : Tab,
      1 ≤ (ensureCursorInBoundsTab t).content.length ∧
      (ensureCursorInBoundsTab t).cursor_position.2 <
        (ensureCursorInBoundsTab t).content.length ∧
      ∀ line, (ensureCursorInBoundsTab t).content.get?
          (ensureCursorInBoundsTab t).cursor_position.2 = some line →
        (ensureCursorInBoundsTab t).cursor_position.1 ≤ line.length := by
  constructor
  · obtain ⟨h1, h2, h3⟩ := reachable_inv h
    obtain ⟨t, ht⟩ : ∃ t, e.tabs.get? e.active_tab = some t :=
      ⟨_, List.get?_eq_get h2⟩
    exact ⟨t, ht, List.length_pos.mpr (h3 t (List.get?_mem ht)).1⟩
  · intro t
    simp only [ensureCursorInBoundsTab]
    have hlen : 1 ≤ (if t.content.isEmpty then t.content ++ [[]]
        else t.content).length := by
      split
      · simp
      · rename_i hne
        refine List.length_pos.mpr ?_
        intro hnil
        exact hne (by simp [hnil])
    refine ⟨hlen, ?_, ?_⟩
    · have := Nat.min_le_right t.cursor_position.2
        ((if t.content.isEmpty then t.content ++ [[]] else t.content).length - 1)
      omega
    · intro line hline
      rw [hline]
      simp only [Option.getD_some]
      exact Nat.min_le_right _ _

def c1WTab : Tab :=
  { Tab.new with content := [['a', 'b'], []], cursor_position := (9, 7) }

/-- Witness for C1 as amended at the initial (reachable) editor and at a
concrete tab whose cursor starts far out of bounds: after
ensure_cursor_in_bounds the buffer is non-empty and both cursor bounds
hold. -/
theorem cursor_bounds_amended_witness :
    (∃ t, Editor.new.tabs.get? Editor.new.active_tab = some t ∧
      1 ≤ t.content.length) ∧
    1 ≤ (ensureCursorInBoundsTab c1WTab).content.length ∧
    (ensureCursorInBoundsTab c1WTab).cursor_position.2 <
      (ensureCursorInBoundsTab c1WTab).content.length ∧
    (ensureCursorInBoundsTab c1WTab).cursor_position.1 ≤
      List.length ([] : List Char) := by
  have h := cursor_bounds_amended Editor.new Reachable.init
  exact ⟨h.1, (h.2 c1WTab).1, (h.2 c1WTab).2.1, (h.2 c1WTab).2.2 [] (by decide)⟩

end Phantom
